import Mathlib

/-!
# CoffeeShop: quota evaluation and the user store

A shallow embedding of `coffeedb/coffeedb.go` and `shopapi/shopapi.go`.

* Go maps are total functions into `Option` (`none` = key absent).
* `uint8`, `uint32` and `int64` values are `Nat` / `Int`; the arithmetic the
  source performs on them wraps explicitly (`wrapUint32`, `wrapInt64`).
* The data directory is a map from files to their content.  The file of a
  user is the one the operating system opens for the name `<userId>.json`
  under `dbDataDir` (`CoffeeDb.fileId`); two names may name one file, as
  `a.json` and `./a.json` do.  A file is either the JSON text of an account
  (`FileData.record`, what `json.Marshal` writes and `json.Unmarshal` reads
  back unchanged) or text on which `json.Unmarshal` fails
  (`FileData.malformed`).  The `QuotaState` map of an account is always
  allocated, as it is for every account `RegisterUser` creates and every JSON
  object `json.Unmarshal` decodes.
* `time.Now().Unix()` is the argument `now`; the outcome of the one
  `ioutil.WriteFile` an operation may perform is the argument `w`.
* The mutex is not part of the sequential model; the interleaving model
  among the definitions splits `buyCoffee` where the source holds no lock.
-/

set_option maxRecDepth 8000

namespace CoffeeShop

/-! ## Machine arithmetic -/

/-- Two's-complement wrap-around of an `int64` result. -/
def wrapInt64 (x : Int) : Int := (x + 2 ^ 63) % 2 ^ 64 - 2 ^ 63

/-- Wrap-around of a `uint32` result. -/
def wrapUint32 (n : Nat) : Nat := n % 2 ^ 32

/-- The value is an `int64`. -/
def isInt64 (x : Int) : Prop := -(2 ^ 63) ≤ x ∧ x < 2 ^ 63

/-- The value is a `uint32`. -/
def isUint32 (n : Nat) : Prop := n < 2 ^ 32

instance (x : Int) : Decidable (isInt64 x) := by unfold isInt64; infer_instance

instance (n : Nat) : Decidable (isUint32 n) := by unfold isUint32; infer_instance

/-! ## `time.Duration.Seconds` in IEEE double precision

`Seconds` computes `float64(sec) + float64(nsec)/1e9` with `sec = d / Second`
and `nsec = d % Second`.  Magnitudes are handled in fixed point: a natural
number `v` stands for the real `v / 2 ^ fxScale`. -/

/-- Fixed-point scale: every double that occurs is a multiple of `2 ^ (-fxScale)`. -/
def fxScale : Nat := 128

/-- Nearest integer to `p / q`, ties to the even one. -/
def roundHalfEven (p q : Nat) : Nat :=
  let fl := p / q
  let r := p % q
  if 2 * r < q then fl
  else if q < 2 * r then fl + 1
  else if fl % 2 = 0 then fl else fl + 1

/-- Position of the highest set bit of `n`, found in at most `fuel` halvings. -/
def highBitAux : Nat → Nat → Nat
  | 0, _ => 0
  | fuel + 1, n => if n < 2 then 0 else highBitAux fuel (n / 2) + 1

/-- Position of the highest set bit: `floor (log2 n)` for `0 < n < 2 ^ 256`,
which covers every fixed-point value of a duration. -/
def highBit (n : Nat) : Nat := highBitAux 256 n

/-- The double nearest to `p / q` (both in fixed point): the quotient is
rounded to 53 significant bits, ties to even. -/
def roundToDouble (p q : Nat) : Nat :=
  let sh := highBit (p / q) - 52
  roundHalfEven p (q * 2 ^ sh) * 2 ^ sh

/-- Magnitude of `int64(time.Duration(d).Seconds())` for a duration of
magnitude `d` nanoseconds. -/
def secondsMagnitude (d : Nat) : Nat :=
  let sec := d / 1000000000
  let nsec := d % 1000000000
  let frac := roundToDouble (nsec * 2 ^ fxScale) 1000000000
  let total := roundToDouble (sec * 2 ^ fxScale + frac) 1
  total / 2 ^ fxScale

/-- The expression `int64(time.Duration(timeFrame).Seconds())`: integer
division and remainder truncate toward zero, the float operations are
symmetric in the sign, and the conversion to `int64` truncates toward zero. -/
def durationSeconds (timeFrame : Int) : Int :=
  if 0 ≤ timeFrame then (secondsMagnitude timeFrame.natAbs : Int)
  else -(secondsMagnitude timeFrame.natAbs : Int)

/-! ## coffeedb: data model -/

/-- Go `type MembershipType uint8`. -/
abbrev MembershipType := Nat

/-- Go `type CoffeeType uint8`. -/
abbrev CoffeeType := Nat

def Basic : MembershipType := 1
def CoffeeLover : MembershipType := 2
def EspressoManiac : MembershipType := 3

def Espresso : CoffeeType := 1
def Americano : CoffeeType := 2
def Cappuccino : CoffeeType := 3

/-- Errors the operations return. -/
inductive Error where
  /-- `os.ErrNotExist` from `ioutil.ReadFile`. -/
  | notExist
  /-- Error of `json.Unmarshal`. -/
  | unmarshal
  /-- Error of `ioutil.WriteFile`. -/
  | writeFailed
  /-- Text "user not found " followed by the user id. -/
  | userNotFound (userId : String)
  /-- Text "invalid coffee type or configuration missing". -/
  | invalidCoffeeOrConfigMissing
  /-- Text "invalid Membership". -/
  | invalidMembership
  /-- Text "invalid membership type". -/
  | invalidMembershipType
  /-- Text "invalid coffee type". -/
  | invalidCoffeeType
deriving DecidableEq, Repr

/-- Method `MembershipType.IsValid`: `none` is the nil error. -/
def MembershipType.IsValid (mt : MembershipType) : Option Error :=
  if mt = Basic ∨ mt = CoffeeLover ∨ mt = EspressoManiac then none
  else some Error.invalidMembershipType

/-- Method `CoffeeType.IsValid`: `none` is the nil error. -/
def CoffeeType.IsValid (ct : CoffeeType) : Option Error :=
  if ct = Espresso ∨ ct = Americano ∨ ct = Cappuccino then none
  else some Error.invalidCoffeeType

/-- Go struct `UserCoffeeQuota`. -/
structure UserCoffeeQuota where
  AmountBought : Nat
  StartBoughtTime : Int
deriving DecidableEq, Repr

/-- Go struct `UserCoffeeMembership`. -/
structure UserCoffeeMembership where
  Membership : MembershipType
  QuotaState : CoffeeType → Option UserCoffeeQuota

/-- Content of one user file in the data directory. -/
inductive FileData where
  /-- The JSON text of an account. -/
  | record (a : UserCoffeeMembership)
  /-- Text that `json.Unmarshal` rejects. -/
  | malformed

/-- Go struct `CoffeeDb`: the cache `users` and the data directory `dbDataDir`.
`fileId` gives the file that the operating system opens for a file name under
`dbDataDir` (names are not sanitised, so two names may give one file), and
`files` the content of each file. -/
structure CoffeeDb where
  users : String → Option UserCoffeeMembership
  files : String → Option FileData
  fileId : String → String

/-- Function `fullUserFileName`. -/
def fullUserFileName (userId : String) : String :=
  userId ++ ".json"

/-- The file opened for `db.dbDataDir + string(os.PathSeparator) +
fullUserFileName(userId)`. -/
def storagePath (db : CoffeeDb) (userId : String) : String :=
  db.fileId (fullUserFileName userId)

/-- The content of the file of a user, if the file exists. -/
def userFile (db : CoffeeDb) (userId : String) : Option FileData :=
  db.files (storagePath db userId)

/-- Map assignment `m[k] = v`. -/
def mapSet {κ α : Type} [DecidableEq κ] (m : κ → Option α) (k : κ) (v : α) : κ → Option α :=
  fun j => if j = k then some v else m j

/-- The empty map `make(map[...]...)`. -/
def mapEmpty {κ α : Type} : κ → Option α := fun _ => none

/-- How the one `ioutil.WriteFile` of an operation ends. -/
inductive WriteOutcome where
  /-- The file now holds the data. -/
  | ok
  /-- The file could not be opened: it is as before. -/
  | failedUntouched
  /-- The file was opened (and truncated) and writing the data failed. -/
  | failedTruncated
deriving DecidableEq, Repr

/-- What `Init` returns: an empty cache over the data directory. -/
def Init (fileId : String → String) (files : String → Option FileData) : CoffeeDb :=
  { users := mapEmpty, files := files, fileId := fileId }

/-! ## coffeedb: operations -/

/-- Method `persistOnStorage`. -/
def persistOnStorage (db : CoffeeDb) (userId : String) (data : FileData) (w : WriteOutcome) :
    CoffeeDb × Option Error :=
  match w with
  | WriteOutcome.ok =>
    ({ db with files := mapSet db.files (storagePath db userId) data }, none)
  | WriteOutcome.failedUntouched => (db, some Error.writeFailed)
  | WriteOutcome.failedTruncated =>
    ({ db with files := mapSet db.files (storagePath db userId) FileData.malformed },
      some Error.writeFailed)

/-- Method `readFromStorage`. -/
def readFromStorage (db : CoffeeDb) (userId : String) : Except Error FileData :=
  match userFile db userId with
  | none => Except.error Error.notExist
  | some data => Except.ok data

/-- Method `saveUserData`: `json.Marshal` of an account does not fail. -/
def saveUserData (db : CoffeeDb) (userId : String) (userQuota : UserCoffeeMembership)
    (w : WriteOutcome) : CoffeeDb × Option Error :=
  persistOnStorage db userId (FileData.record userQuota) w

/-- Method `loadUserDataIfNotExist`. -/
def loadUserDataIfNotExist (db : CoffeeDb) (userId : String) : CoffeeDb × Option Error :=
  match readFromStorage db userId with
  | Except.error err => (db, some err)
  | Except.ok FileData.malformed => (db, some Error.unmarshal)
  | Except.ok (FileData.record userData) =>
    ({ db with users := mapSet db.users userId userData }, none)

/-- Method `userData`. -/
def userData (db : CoffeeDb) (userId : String) : Option UserCoffeeMembership :=
  db.users userId

/-- Method `GetUserData`. -/
def GetUserData (db : CoffeeDb) (userId : String) : CoffeeDb × Option UserCoffeeMembership :=
  match userData db userId with
  | none =>
    match loadUserDataIfNotExist db userId with
    | (db1, some _) => (db1, none)
    | (db1, none) => (db1, userData db1 userId)
  | some qs => (db, some qs)

/-- Method `RegisterUser`. -/
def RegisterUser (db : CoffeeDb) (userId : String) (membership : MembershipType)
    (w : WriteOutcome) : CoffeeDb × Option Error :=
  match loadUserDataIfNotExist db userId with
  | (db1, some Error.notExist) =>
    let userData : UserCoffeeMembership := { Membership := membership, QuotaState := mapEmpty }
    saveUserData { db1 with users := mapSet db1.users userId userData } userId userData w
  | (db1, _) => (db1, none)

/-- Method `SetQuotaState`.  The assignment `userQuota.QuotaState[coffee] = *qs`
writes into the map that the cached account shares, so the cache holds the new
counter before the account is saved. -/
def SetQuotaState (db : CoffeeDb) (userId : String) (coffee : CoffeeType)
    (qs : UserCoffeeQuota) (w : WriteOutcome) : CoffeeDb × Option Error :=
  match GetUserData db userId with
  | (db1, some _) =>
    match db1.users userId with
    | some userQuota =>
      let userQuota1 : UserCoffeeMembership :=
        { userQuota with QuotaState := mapSet userQuota.QuotaState coffee qs }
      saveUserData { db1 with users := mapSet db1.users userId userQuota1 } userId userQuota1 w
    | none => (db1, none) -- not reached: GetUserData returned the cached account
  | (db1, none) => (db1, none)

/-- Method `ClearDb`. -/
def ClearDb (db : CoffeeDb) : CoffeeDb :=
  { users := mapEmpty, files := mapEmpty, fileId := db.fileId }

/-! ## shopapi -/

/-- Go struct `CoffeeQuota` (field `Type` is `Type_` here); `TimeFrame` is an
`int64` count of nanoseconds. -/
structure CoffeeQuota where
  Type_ : CoffeeType
  Amount : Nat
  TimeFrame : Int
deriving DecidableEq, Repr

/-- Go struct `CoffeeQuotaPerMembership`. -/
structure CoffeeQuotaPerMembership where
  Membership : MembershipType
  Quota : List CoffeeQuota
deriving DecidableEq, Repr

/-- Go struct `CoffeeLimitExceed` (field `Type` is `Type_` here). -/
structure CoffeeLimitExceed where
  Type_ : CoffeeType
  AmountBought : Nat
  AvailableIn : Int
deriving DecidableEq, Repr

/-- The global `coffeeConfig`. -/
abbrev CoffeeConfig := MembershipType → Option CoffeeQuotaPerMembership

/-- Function `coffeeQuotaConfig`. -/
def coffeeQuotaConfig (coffeeConfig : CoffeeConfig) (coffee : CoffeeType)
    (membership : MembershipType) : Except Error CoffeeQuota :=
  match coffeeConfig membership with
  | some cq =>
    match cq.Quota.find? (fun cQuotaItem => cQuotaItem.Type_ == coffee) with
    | some cQuotaItem => Except.ok cQuotaItem
    | none => Except.error Error.invalidCoffeeOrConfigMissing
  | none => Except.error Error.invalidMembership

/-- Result of `buyCoffee`: the store afterwards, the limit pointer and the error. -/
structure BuyResult where
  db : CoffeeDb
  limit : Option CoffeeLimitExceed
  err : Option Error

/-- Function `buyCoffee`, with the clock reading `now` and the outcome `w` of
the file write. -/
def buyCoffee (coffeeConfig : CoffeeConfig) (db : CoffeeDb) (userId : String)
    (coffee : CoffeeType) (now : Int) (w : WriteOutcome) : BuyResult :=
  match GetUserData db userId with
  | (db1, none) => { db := db1, limit := none, err := some (Error.userNotFound userId) }
  | (db1, some qs) =>
    match coffeeQuotaConfig coffeeConfig coffee qs.Membership with
    | Except.error err => { db := db1, limit := none, err := some err }
    | Except.ok cQuotaConfig =>
      let timeNowSeconds := now
      match qs.QuotaState coffee with
      | some userCoffeeQuota =>
        let quotaInSeconds := durationSeconds cQuotaConfig.TimeFrame
        let timeDiff := wrapInt64 (timeNowSeconds - userCoffeeQuota.StartBoughtTime)
        if timeDiff < quotaInSeconds then
          if cQuotaConfig.Amount ≤ userCoffeeQuota.AmountBought then
            { db := db1
              limit := some
                { Type_ := coffee
                  AmountBought := userCoffeeQuota.AmountBought
                  AvailableIn := wrapInt64 (quotaInSeconds - timeDiff) }
              err := none }
          else
            let r := SetQuotaState db1 userId coffee
              { AmountBought := wrapUint32 (userCoffeeQuota.AmountBought + 1)
                StartBoughtTime := userCoffeeQuota.StartBoughtTime } w
            { db := r.1, limit := none, err := r.2 }
        else
          let r := SetQuotaState db1 userId coffee
            { AmountBought := 1, StartBoughtTime := timeNowSeconds } w
          { db := r.1, limit := none, err := r.2 }
      | none =>
        let r := SetQuotaState db1 userId coffee
          { AmountBought := 1, StartBoughtTime := timeNowSeconds } w
        { db := r.1, limit := none, err := r.2 }

/-- Go struct `UserRegister`, the decoded body of a registration request. -/
structure UserRegister where
  UserId : String
  Membership : MembershipType
deriving DecidableEq, Repr

/-- What `apiRegisterUser` writes to the response. -/
inductive ApiResponse where
  /-- Status 200. -/
  | statusOK
  /-- Status 400, "empty user id". -/
  | emptyUserId
  /-- Status 400, "this user is registered already". -/
  | alreadyRegistered
  /-- Status 400 with the text of an error. -/
  | badRequest (err : Error)
deriving DecidableEq, Repr

/-- Handler `apiRegisterUser` from the decoded request body on (a POST whose
body is valid JSON). -/
def apiRegisterUser (db : CoffeeDb) (userReg : UserRegister) (w : WriteOutcome) :
    CoffeeDb × ApiResponse :=
  if userReg.UserId.length = 0 then (db, ApiResponse.emptyUserId)
  else
    match GetUserData db userReg.UserId with
    | (db1, some _) => (db1, ApiResponse.alreadyRegistered)
    | (db1, none) =>
      match MembershipType.IsValid userReg.Membership with
      | some err => (db1, ApiResponse.badRequest err)
      | none =>
        match RegisterUser db1 userReg.UserId userReg.Membership w with
        | (db2, some err) => (db2, ApiResponse.badRequest err)
        | (db2, none) => (db2, ApiResponse.statusOK)

/-! ## Vocabulary of the properties -/

/-- The store holds account `a` for `userId`: in the cache, or, when the cache
has no entry, as the decodable file of that user.  This is the account
`GetUserData` returns. -/
def hasAccount (db : CoffeeDb) (userId : String) (a : UserCoffeeMembership) : Prop :=
  db.users userId = some a ∨
    (db.users userId = none ∧ userFile db userId = some (FileData.record a))

/-- The account with one counter replaced. -/
def withCounter (a : UserCoffeeMembership) (coffee : CoffeeType) (qs : UserCoffeeQuota) :
    UserCoffeeMembership :=
  { a with QuotaState := mapSet a.QuotaState coffee qs }

/-- The store after the account `a` was put in the cache for `userId`. -/
def cacheFill (db : CoffeeDb) (userId : String) (a : UserCoffeeMembership) : CoffeeDb :=
  { db with users := mapSet db.users userId a }

/-- The store in which both the cache and the file of `userId` hold `a`. -/
def committed (db : CoffeeDb) (userId : String) (a : UserCoffeeMembership) : CoffeeDb :=
  { users := mapSet db.users userId a
    files := mapSet db.files (storagePath db userId) (FileData.record a)
    fileId := db.fileId }

/-- The counter the cache holds for a user and a category. -/
def cachedCounter (db : CoffeeDb) (userId : String) (coffee : CoffeeType) :
    Option UserCoffeeQuota :=
  (db.users userId).bind (fun a => a.QuotaState coffee)

/-- The counter the user file holds for a category. -/
def storedCounter (db : CoffeeDb) (userId : String) (coffee : CoffeeType) :
    Option UserCoffeeQuota :=
  match userFile db userId with
  | some (FileData.record a) => a.QuotaState coffee
  | _ => none

/-- Successive `buyCoffee` calls for one user and category at the given clock
readings, every file write succeeding; returns the final store and the
`(limit, err)` pair of each call in order. -/
def buyCoffeeRun (coffeeConfig : CoffeeConfig) (db : CoffeeDb) (userId : String)
    (coffee : CoffeeType) : List Int → CoffeeDb × List (Option CoffeeLimitExceed × Option Error)
  | [] => (db, [])
  | t :: ts =>
    let r := buyCoffee coffeeConfig db userId coffee t WriteOutcome.ok
    let rest := buyCoffeeRun coffeeConfig r.db userId coffee ts
    (rest.1, (r.limit, r.err) :: rest.2)

/-! ## Fixtures -/

/-- A configuration with one policy for every tier. -/
def singlePolicy (q : CoffeeQuota) : CoffeeConfig :=
  fun m => some { Membership := m, Quota := [q] }

/-- The configuration of `TestBuyEspressoCoffee`: Basic with 1 Espresso,
2 Americano, 3 Cappuccino per 10 seconds. -/
def customConfig : CoffeeConfig :=
  mapSet mapEmpty Basic
    { Membership := Basic
      Quota :=
        [ { Type_ := Espresso, Amount := 1, TimeFrame := 10 * 1000000000 },
          { Type_ := Americano, Amount := 2, TimeFrame := 10 * 1000000000 },
          { Type_ := Cappuccino, Amount := 3, TimeFrame := 10 * 1000000000 } ] }

/-- A data directory in which every file name names a file of its own. -/
def plainNames : String → String := fun name => name

/-- A data directory in which `./x` names the file `x`. -/
def dotSlashNames : String → String := fun name =>
  match name.data with
  | '.' :: '/' :: rest => String.mk rest
  | _ => name

/-- An empty data directory in which user "u1" was registered as Basic. -/
def registeredDb : CoffeeDb :=
  (RegisterUser (Init plainNames mapEmpty) "u1" Basic WriteOutcome.ok).1

/-- The account of a Basic user who bought `n` Espresso in the window that
started at `s`. -/
def espressoAccount (n : Nat) (s : Int) : UserCoffeeMembership :=
  { Membership := Basic
    QuotaState := mapSet mapEmpty Espresso { AmountBought := n, StartBoughtTime := s } }

/-- A store whose cache and file hold `espressoAccount n s` for user "u1". -/
def espressoDb (n : Nat) (s : Int) : CoffeeDb :=
  { users := mapSet mapEmpty "u1" (espressoAccount n s)
    files := mapSet mapEmpty "u1.json" (FileData.record (espressoAccount n s))
    fileId := plainNames }

/-- A configuration whose window is not a whole number of seconds: 5 Espresso
per 1.5 seconds, for every tier. -/
def fractionalConfig : CoffeeConfig :=
  singlePolicy { Type_ := Espresso, Amount := 5, TimeFrame := 1500000000 }

/-! ## Interleaving model

`buyCoffee` holds no lock between reading the counter (`qs.QuotaState[coffee]`)
and calling `SetQuotaState`: the mutex is taken and released inside `userData`
and inside `SetQuotaState`.  A call is therefore two steps, between which steps
of other calls may run: `buyCoffeeDecide` (everything up to the choice of the
return statement) and `buyCoffeeCommit` (the `SetQuotaState` of that return
statement, if any). -/

/-- What a call has chosen when it reaches its return statement. -/
inductive Pending where
  /-- It returns without writing. -/
  | done (limit : Option CoffeeLimitExceed) (err : Option Error)
  /-- It returns `nil, db.SetQuotaState(userId, coffee, &qs)`. -/
  | write (qs : UserCoffeeQuota)
deriving DecidableEq, Repr

/-- Function `buyCoffee` up to its return statement. -/
def buyCoffeeDecide (coffeeConfig : CoffeeConfig) (db : CoffeeDb) (userId : String)
    (coffee : CoffeeType) (now : Int) : CoffeeDb × Pending :=
  match GetUserData db userId with
  | (db1, none) => (db1, Pending.done none (some (Error.userNotFound userId)))
  | (db1, some qs) =>
    match coffeeQuotaConfig coffeeConfig coffee qs.Membership with
    | Except.error err => (db1, Pending.done none (some err))
    | Except.ok cQuotaConfig =>
      let timeNowSeconds := now
      match qs.QuotaState coffee with
      | some userCoffeeQuota =>
        let quotaInSeconds := durationSeconds cQuotaConfig.TimeFrame
        let timeDiff := wrapInt64 (timeNowSeconds - userCoffeeQuota.StartBoughtTime)
        if timeDiff < quotaInSeconds then
          if cQuotaConfig.Amount ≤ userCoffeeQuota.AmountBought then
            (db1, Pending.done
              (some
                { Type_ := coffee
                  AmountBought := userCoffeeQuota.AmountBought
                  AvailableIn := wrapInt64 (quotaInSeconds - timeDiff) })
              none)
          else
            (db1, Pending.write
              { AmountBought := wrapUint32 (userCoffeeQuota.AmountBought + 1)
                StartBoughtTime := userCoffeeQuota.StartBoughtTime })
        else
          (db1, Pending.write { AmountBought := 1, StartBoughtTime := timeNowSeconds })
      | none =>
        (db1, Pending.write { AmountBought := 1, StartBoughtTime := timeNowSeconds })

/-- The return statement a call has chosen, executed on the store as it is then. -/
def buyCoffeeCommit (db : CoffeeDb) (userId : String) (coffee : CoffeeType) (p : Pending)
    (w : WriteOutcome) : BuyResult :=
  match p with
  | Pending.done limit err => { db := db, limit := limit, err := err }
  | Pending.write qs =>
    let r := SetQuotaState db userId coffee qs w
    { db := r.1, limit := none, err := r.2 }

/-- One step of a schedule of concurrent calls, the calls numbered from 0. -/
inductive SchedStep where
  /-- Call `i` runs up to its return statement, reading the clock as `now`. -/
  | decide (i : Nat) (now : Int)
  /-- Call `i` executes its return statement (its file write succeeds). -/
  | commit (i : Nat)
deriving DecidableEq, Repr

/-- State of a schedule: the store, what each call has chosen, and the
`(call, limit, err)` of the calls that returned, latest first. -/
structure SchedState where
  db : CoffeeDb
  pending : Nat → Option Pending
  returned : List (Nat × Option CoffeeLimitExceed × Option Error)

/-- Runs a schedule of calls of `buyCoffee` for one user and category. -/
def runSchedule (coffeeConfig : CoffeeConfig) (userId : String) (coffee : CoffeeType) :
    List SchedStep → SchedState → SchedState
  | [], st => st
  | SchedStep.decide i now :: rest, st =>
    let d := buyCoffeeDecide coffeeConfig st.db userId coffee now
    runSchedule coffeeConfig userId coffee rest
      { st with db := d.1, pending := mapSet st.pending i d.2 }
  | SchedStep.commit i :: rest, st =>
    match st.pending i with
    | none => runSchedule coffeeConfig userId coffee rest st
    | some p =>
      let r := buyCoffeeCommit st.db userId coffee p WriteOutcome.ok
      runSchedule coffeeConfig userId coffee rest
        { db := r.db, pending := st.pending, returned := (i, r.limit, r.err) :: st.returned }

/-- The start of a schedule on a store. -/
def schedStart (db : CoffeeDb) : SchedState :=
  { db := db, pending := mapEmpty, returned := [] }

/-- Number of calls that returned Allowed (nil limit, nil error). -/
def allowedCount (returned : List (Nat × Option CoffeeLimitExceed × Option Error)) : Nat :=
  (returned.filter (fun r => r.2.1.isNone && r.2.2.isNone)).length

/-- Number of calls that returned LimitExceeded. -/
def limitExceededCount (returned : List (Nat × Option CoffeeLimitExceed × Option Error)) : Nat :=
  (returned.filter (fun r => r.2.1.isSome)).length

/-! ## Second group of definitions: configuration, names, operation sequences -/

/-- Subtraction in `uint8` arithmetic. -/
def subUint8 (a b : Nat) : Nat := (a % 256 + 256 - b % 256) % 256

/-- Method `MembershipType.String`: the index `m-1` is computed in `uint8`;
`none` stands for the index-out-of-range panic. -/
def MembershipType.String (m : MembershipType) : Option String :=
  (["Basic", "Coffee Lover", "Espresso Maniac"])[subUint8 m 1]?

/-- Method `CoffeeType.String`: the index `c-1` is computed in `uint8`;
`none` stands for the index-out-of-range panic. -/
def CoffeeType.String (c : CoffeeType) : Option String :=
  (["Espresso", "Americano", "Cappuccino"])[subUint8 c 1]?

/-- Constant `time.Hour` as an `int64` count of nanoseconds. -/
def timeHour : Int := 3600 * 1000000000

/-- Function `InitDefaultConfig`: the value it leaves in `coffeeConfig`. -/
def InitDefaultConfig : CoffeeConfig :=
  let coffeeConfig0 : CoffeeConfig := mapEmpty
  let basicQuotas : List CoffeeQuota :=
    [ { Type_ := Espresso, Amount := 1, TimeFrame := timeHour * 24 },
      { Type_ := Americano, Amount := 2, TimeFrame := timeHour * 24 },
      { Type_ := Cappuccino, Amount := 3, TimeFrame := timeHour * 24 } ]
  let coffeeConfig1 := mapSet coffeeConfig0 Basic { Membership := Basic, Quota := basicQuotas }
  let coffeeLoverQuotas : List CoffeeQuota :=
    [ { Type_ := Espresso, Amount := 5, TimeFrame := timeHour * 24 },
      { Type_ := Americano, Amount := 5, TimeFrame := timeHour * 24 },
      { Type_ := Cappuccino, Amount := 5, TimeFrame := timeHour * 24 } ]
  let coffeeConfig2 := mapSet coffeeConfig1 CoffeeLover
    { Membership := CoffeeLover, Quota := coffeeLoverQuotas }
  let espressoManiacQuotas : List CoffeeQuota :=
    [ { Type_ := Espresso, Amount := 5, TimeFrame := timeHour },
      { Type_ := Americano, Amount := 2, TimeFrame := timeHour * 24 },
      { Type_ := Cappuccino, Amount := 3, TimeFrame := timeHour * 24 } ]
  mapSet coffeeConfig2 EspressoManiac
    { Membership := EspressoManiac, Quota := espressoManiacQuotas }

/-- A call of one of the operations of the store, its file write succeeding. -/
inductive StoreOp where
  | registerUser (userId : String) (membership : MembershipType)
  | getUserData (userId : String)
  | setQuotaState (userId : String) (coffee : CoffeeType) (qs : UserCoffeeQuota)
  | buyCoffee (userId : String) (coffee : CoffeeType) (now : Int)
  | clearDb
deriving DecidableEq, Repr

/-- The store after one operation. -/
def applyOp (coffeeConfig : CoffeeConfig) (db : CoffeeDb) : StoreOp → CoffeeDb
  | StoreOp.registerUser userId membership =>
    (RegisterUser db userId membership WriteOutcome.ok).1
  | StoreOp.getUserData userId => (GetUserData db userId).1
  | StoreOp.setQuotaState userId coffee qs =>
    (SetQuotaState db userId coffee qs WriteOutcome.ok).1
  | StoreOp.buyCoffee userId coffee now =>
    (buyCoffee coffeeConfig db userId coffee now WriteOutcome.ok).db
  | StoreOp.clearDb => ClearDb db

/-- The store after a sequence of operations. -/
def runOps (coffeeConfig : CoffeeConfig) (db : CoffeeDb) (ops : List StoreOp) : CoffeeDb :=
  ops.foldl (applyOp coffeeConfig) db

/-- The empty store: nothing cached, no file. -/
def emptyDb (fileId : String → String) : CoffeeDb := Init fileId mapEmpty

/-- The user ids a sequence of operations names. -/
def opUsers : List StoreOp → List String
  | [] => []
  | StoreOp.registerUser userId _ :: ops => userId :: opUsers ops
  | StoreOp.getUserData userId :: ops => userId :: opUsers ops
  | StoreOp.setQuotaState userId _ _ :: ops => userId :: opUsers ops
  | StoreOp.buyCoffee userId _ _ :: ops => userId :: opUsers ops
  | StoreOp.clearDb :: ops => opUsers ops

/-- The tier the file of a user records, if the file decodes. -/
def storedTier (db : CoffeeDb) (userId : String) : Option MembershipType :=
  match userFile db userId with
  | some (FileData.record a) => some a.Membership
  | _ => none

/-- An empty data directory, in which `./x` names the file `x`, after user "a"
was registered as Basic. -/
def aliasDb : CoffeeDb :=
  (RegisterUser (Init dotSlashNames mapEmpty) "a" Basic WriteOutcome.ok).1

/-- One call of `buyCoffee`: user, category, clock reading, outcome of the write. -/
structure BuyCall where
  userId : String
  coffee : CoffeeType
  now : Int
  w : WriteOutcome
deriving DecidableEq, Repr

/-- The store after a sequence of `buyCoffee` calls. -/
def runBuys (coffeeConfig : CoffeeConfig) (db : CoffeeDb) (calls : List BuyCall) : CoffeeDb :=
  calls.foldl (fun d k => (buyCoffee coffeeConfig d k.userId k.coffee k.now k.w).db) db

/-- A clock reading within `2 ^ 61` seconds of the epoch. -/
def clockReading (t : Int) : Prop := -(2 ^ 61) ≤ t ∧ t < 2 ^ 61

instance (t : Int) : Decidable (clockReading t) := by unfold clockReading; infer_instance

/-- The cache mirrors the files: every cached account is the account the file
of that user decodes to. -/
def cacheMirrored (db : CoffeeDb) : Prop :=
  ∀ userId a, db.users userId = some a → userFile db userId = some (FileData.record a)

/-- A store in which the file of "u9" is not valid JSON and nothing is cached. -/
def corruptDb : CoffeeDb :=
  Init plainNames (mapSet mapEmpty "u9.json" FileData.malformed)

/-- The counter of the account for the category, if there is one, is between 1
and `max 1 A`. -/
def counterBounded (A : Nat) (coffee : CoffeeType) (a : UserCoffeeMembership) : Prop :=
  ∀ q, a.QuotaState coffee = some q → 1 ≤ q.AmountBought ∧ q.AmountBought ≤ max 1 A

/-- The files are named by `fileId`, and every account the store holds for the
user has the tier and a bounded counter for the category: the account in the
file of the user, and the cached account of the user and of every id in `ids`
that names the file of the user. -/
def accountBoundedOn (fileId : String → String) (ids : List String) (tier : MembershipType)
    (A : Nat) (userId : String) (coffee : CoffeeType) (db : CoffeeDb) : Prop :=
  db.fileId = fileId ∧
    (∀ v a, (v = userId ∨ v ∈ ids) →
      fileId (fullUserFileName v) = fileId (fullUserFileName userId) →
      db.users v = some a → a.Membership = tier ∧ counterBounded A coffee a) ∧
    (∀ a, db.files (fileId (fullUserFileName userId)) = some (FileData.record a) →
      a.Membership = tier ∧ counterBounded A coffee a)

/-- The files are named by `fileId`, only ids in `ids` are cached, and every
cached account is the account the file of that user decodes to. -/
def cacheMirroredOn (fileId : String → String) (ids : List String) (db : CoffeeDb) : Prop :=
  db.fileId = fileId ∧
    ∀ userId a, db.users userId = some a →
      userId ∈ ids ∧ db.files (fileId (fullUserFileName userId)) = some (FileData.record a)

/-! ## Maps -/

theorem mapSet_same {κ α : Type} [DecidableEq κ] (m : κ → Option α) (k : κ) (v : α) :
    mapSet m k v k = some v := by
  simp [mapSet]

theorem mapSet_other {κ α : Type} [DecidableEq κ] (m : κ → Option α) {j k : κ} (v : α)
    (h : j ≠ k) : mapSet m k v j = m j := by
  simp [mapSet, h]

theorem mapSet_mapSet {κ α : Type} [DecidableEq κ] (m : κ → Option α) (k : κ) (v v1 : α) :
    mapSet (mapSet m k v) k v1 = mapSet m k v1 := by
  funext j
  by_cases h : j = k <;> simp [mapSet, h]

theorem mapSet_self {κ α : Type} [DecidableEq κ] (m : κ → Option α) (k : κ) (v : α)
    (h : m k = some v) : mapSet m k v = m := by
  funext j
  by_cases hj : j = k
  · subst hj; simp [mapSet, h]
  · simp [mapSet, hj]

/-! ## Files and their names -/

theorem storagePath_cacheFill (db : CoffeeDb) (userId : String) (a : UserCoffeeMembership)
    (other : String) : storagePath (cacheFill db userId a) other = storagePath db other := rfl

theorem userFile_cacheFill (db : CoffeeDb) (userId : String) (a : UserCoffeeMembership)
    (other : String) : userFile (cacheFill db userId a) other = userFile db other := rfl

theorem storagePath_committed (db : CoffeeDb) (userId : String) (a : UserCoffeeMembership)
    (other : String) : storagePath (committed db userId a) other = storagePath db other := rfl

theorem userFile_committed_same (db : CoffeeDb) (userId : String) (a : UserCoffeeMembership) :
    userFile (committed db userId a) userId = some (FileData.record a) := by
  simp [userFile, storagePath, committed, mapSet_same]

theorem userFile_committed_other (db : CoffeeDb) (userId : String) (a : UserCoffeeMembership)
    {other : String} (h : storagePath db other ≠ storagePath db userId) :
    userFile (committed db userId a) other = userFile db other := by
  unfold userFile
  rw [storagePath_committed]
  simp [committed, mapSet_other, h]

/-! ## The store -/

theorem GetUserData_cached {db : CoffeeDb} {userId : String} {a : UserCoffeeMembership}
    (h : db.users userId = some a) : GetUserData db userId = (db, some a) := by
  simp [GetUserData, userData, h]

theorem GetUserData_load {db : CoffeeDb} {userId : String} {a : UserCoffeeMembership}
    (h : db.users userId = none) (hf : userFile db userId = some (FileData.record a)) :
    GetUserData db userId = (cacheFill db userId a, some a) := by
  simp [GetUserData, userData, h, loadUserDataIfNotExist, readFromStorage, hf, cacheFill,
    mapSet_same]

theorem GetUserData_absent {db : CoffeeDb} {userId : String}
    (h : db.users userId = none) (hf : userFile db userId = none) :
    GetUserData db userId = (db, none) := by
  simp [GetUserData, userData, h, loadUserDataIfNotExist, readFromStorage, hf]

theorem GetUserData_malformed {db : CoffeeDb} {userId : String}
    (h : db.users userId = none) (hf : userFile db userId = some FileData.malformed) :
    GetUserData db userId = (db, none) := by
  simp [GetUserData, userData, h, loadUserDataIfNotExist, readFromStorage, hf]

theorem cacheFill_of_cached {db : CoffeeDb} {userId : String} {a : UserCoffeeMembership}
    (h : db.users userId = some a) : cacheFill db userId a = db := by
  cases db with
  | mk users files =>
    simp only [cacheFill] at h ⊢
    rw [mapSet_self users userId a h]

theorem GetUserData_of_hasAccount {db : CoffeeDb} {userId : String} {a : UserCoffeeMembership}
    (h : hasAccount db userId a) : GetUserData db userId = (cacheFill db userId a, some a) := by
  rcases h with h | ⟨h, hf⟩
  · rw [cacheFill_of_cached h]; exact GetUserData_cached h
  · exact GetUserData_load h hf

theorem cacheFill_users (db : CoffeeDb) (userId : String) (a : UserCoffeeMembership) :
    (cacheFill db userId a).users userId = some a := by
  simp [cacheFill, mapSet_same]

theorem SetQuotaState_cached {db : CoffeeDb} {userId : String} {a : UserCoffeeMembership}
    (h : db.users userId = some a) (coffee : CoffeeType) (qs : UserCoffeeQuota)
    (w : WriteOutcome) :
    SetQuotaState db userId coffee qs w =
      saveUserData (cacheFill db userId (withCounter a coffee qs)) userId
        (withCounter a coffee qs) w := by
  simp [SetQuotaState, GetUserData_cached h, h, cacheFill, withCounter]

theorem SetQuotaState_cacheFill_ok (db : CoffeeDb) (userId : String) (a : UserCoffeeMembership)
    (coffee : CoffeeType) (qs : UserCoffeeQuota) :
    SetQuotaState (cacheFill db userId a) userId coffee qs WriteOutcome.ok =
      (committed db userId (withCounter a coffee qs), none) := by
  rw [SetQuotaState_cached (cacheFill_users db userId a)]
  simp [saveUserData, persistOnStorage, cacheFill, committed, mapSet_mapSet, storagePath]

/-- Unfolding of `buyCoffee` for a user with an account and a policy. -/
theorem buyCoffee_of_policy {coffeeConfig : CoffeeConfig} {db : CoffeeDb} {userId : String}
    {a : UserCoffeeMembership} {coffee : CoffeeType} {pol : CoffeeQuota}
    (ha : hasAccount db userId a)
    (hp : coffeeQuotaConfig coffeeConfig coffee a.Membership = Except.ok pol)
    (now : Int) (w : WriteOutcome) :
    buyCoffee coffeeConfig db userId coffee now w =
      match a.QuotaState coffee with
      | some q =>
        if wrapInt64 (now - q.StartBoughtTime) < durationSeconds pol.TimeFrame then
          if pol.Amount ≤ q.AmountBought then
            { db := cacheFill db userId a
              limit := some
                { Type_ := coffee
                  AmountBought := q.AmountBought
                  AvailableIn :=
                    wrapInt64 (durationSeconds pol.TimeFrame -
                      wrapInt64 (now - q.StartBoughtTime)) }
              err := none }
          else
            { db := (SetQuotaState (cacheFill db userId a) userId coffee
                { AmountBought := wrapUint32 (q.AmountBought + 1)
                  StartBoughtTime := q.StartBoughtTime } w).1
              limit := none
              err := (SetQuotaState (cacheFill db userId a) userId coffee
                { AmountBought := wrapUint32 (q.AmountBought + 1)
                  StartBoughtTime := q.StartBoughtTime } w).2 }
        else
          { db := (SetQuotaState (cacheFill db userId a) userId coffee
              { AmountBought := 1, StartBoughtTime := now } w).1
            limit := none
            err := (SetQuotaState (cacheFill db userId a) userId coffee
              { AmountBought := 1, StartBoughtTime := now } w).2 }
      | none =>
        { db := (SetQuotaState (cacheFill db userId a) userId coffee
            { AmountBought := 1, StartBoughtTime := now } w).1
          limit := none
          err := (SetQuotaState (cacheFill db userId a) userId coffee
            { AmountBought := 1, StartBoughtTime := now } w).2 } := by
  simp only [buyCoffee, GetUserData_of_hasAccount ha, hp]

theorem wrapInt64_of_isInt64 {x : Int} (h : isInt64 x) : wrapInt64 x = x := by
  unfold isInt64 at h
  unfold wrapInt64
  rw [Int.emod_eq_of_lt (by omega) (by omega)]
  omega

/-! ## Bounds on `durationSeconds` -/

theorem highBitAux_lt (fuel : Nat) : ∀ (n k : Nat), 0 < k → n < 2 ^ k → highBitAux fuel n < k := by
  induction fuel with
  | zero => intro n k hk _; simpa [highBitAux] using hk
  | succ f ih =>
    intro n k hk hn
    unfold highBitAux
    split
    · exact hk
    · rename_i h2
      have hk2 : 2 ≤ k := by
        by_contra hlt
        have : k = 1 := by omega
        subst this
        omega
      have hhalf : n / 2 < 2 ^ (k - 1) := by
        have : 2 ^ k = 2 ^ (k - 1) * 2 := by
          rw [← pow_succ]; congr 1; omega
        rw [this] at hn
        exact Nat.div_lt_of_lt_mul (by omega)
      have := ih (n / 2) (k - 1) (by omega) hhalf
      omega

/-- With enough fuel `highBitAux` is the position of the highest set bit. -/
theorem highBitAux_spec (fuel : Nat) : ∀ n : Nat, 0 < n → n < 2 ^ fuel →
    2 ^ highBitAux fuel n ≤ n ∧ n < 2 ^ (highBitAux fuel n + 1) := by
  induction fuel with
  | zero => intro n h0 h1; simp at h1; omega
  | succ f ih =>
    intro n h0 h1
    unfold highBitAux
    split
    · have : n = 1 := by omega
      subst this
      simp
    · have hhalf : n / 2 < 2 ^ f := by
        rw [pow_succ] at h1
        exact Nat.div_lt_of_lt_mul (by omega)
      obtain ⟨hlo, hhi⟩ := ih (n / 2) (by omega) hhalf
      rw [pow_succ, pow_succ]
      rw [pow_succ] at hhi
      constructor <;> omega

/-- On every fixed-point value that occurs, `highBit` is `floor (log2 n)`. -/
theorem highBit_spec {n : Nat} (h0 : 0 < n) (h : n < 2 ^ 256) :
    2 ^ highBit n ≤ n ∧ n < 2 ^ (highBit n + 1) :=
  highBitAux_spec 256 n h0 h

theorem roundHalfEven_le {p q b : Nat} (hq : 0 < q) (h : p ≤ b * q) : roundHalfEven p q ≤ b := by
  have hfl : p / q ≤ b := by
    calc p / q ≤ b * q / q := Nat.div_le_div_right h
      _ = b := Nat.mul_div_cancel b hq
  unfold roundHalfEven
  by_cases hlt : p / q < b
  · simp only
    split
    · exact hfl
    · split
      · omega
      · split <;> omega
  · have hb : p / q = b := by omega
    have hdm := Nat.div_add_mod p q
    have hr : p % q = 0 := by
      rw [hb, Nat.mul_comm] at hdm
      omega
    simp [hr, hq, hb]

theorem le_roundHalfEven (p q : Nat) : p / q ≤ roundHalfEven p q := by
  unfold roundHalfEven
  simp only
  split
  · exact le_rfl
  · split
    · omega
    · split <;> omega

theorem roundToDouble_le {p q B k : Nat} (hq : 0 < q) (h : p ≤ B * q) (hB : 2 ^ k ∣ B)
    (hk : highBit (p / q) - 52 ≤ k) : roundToDouble p q ≤ B := by
  unfold roundToDouble
  simp only
  have hdvd : 2 ^ (highBit (p / q) - 52) ∣ B := dvd_trans (pow_dvd_pow 2 hk) hB
  obtain ⟨b, hb⟩ := hdvd
  have hle : roundHalfEven p (q * 2 ^ (highBit (p / q) - 52)) ≤ b := by
    apply roundHalfEven_le (by positivity)
    calc p ≤ B * q := h
      _ = b * (q * 2 ^ (highBit (p / q) - 52)) := by rw [hb]; ring
  calc roundHalfEven p (q * 2 ^ (highBit (p / q) - 52)) * 2 ^ (highBit (p / q) - 52)
      ≤ b * 2 ^ (highBit (p / q) - 52) := Nat.mul_le_mul_right _ hle
    _ = B := by rw [hb]; ring

theorem le_roundToDouble {p q B k : Nat} (hq : 0 < q) (h : B * q ≤ p) (hB : 2 ^ k ∣ B)
    (hk : highBit (p / q) - 52 ≤ k) : B ≤ roundToDouble p q := by
  unfold roundToDouble
  simp only
  have hdvd : 2 ^ (highBit (p / q) - 52) ∣ B := dvd_trans (pow_dvd_pow 2 hk) hB
  obtain ⟨b, hb⟩ := hdvd
  have hpos : 0 < q * 2 ^ (highBit (p / q) - 52) := by positivity
  have hle : b ≤ p / (q * 2 ^ (highBit (p / q) - 52)) := by
    rw [Nat.le_div_iff_mul_le hpos]
    calc b * (q * 2 ^ (highBit (p / q) - 52)) = B * q := by rw [hb]; ring
      _ ≤ p := h
  calc B = b * 2 ^ (highBit (p / q) - 52) := by rw [hb]; ring
    _ ≤ roundHalfEven p (q * 2 ^ (highBit (p / q) - 52)) * 2 ^ (highBit (p / q) - 52) :=
        Nat.mul_le_mul_right _ (le_trans hle (le_roundHalfEven _ _))

theorem highBit_sub_le {n : Nat} (h : n < 2 ^ 181) : highBit n - 52 ≤ 128 := by
  have := highBitAux_lt 256 n 181 (by norm_num) h
  unfold highBit
  omega

theorem secondsMagnitude_bounds {d : Nat} (hd : d ≤ 2 ^ 63) :
    d / 1000000000 ≤ secondsMagnitude d ∧
      ∀ D : Nat, d ≤ D * 1000000000 → secondsMagnitude d ≤ D := by
  have hS : (0 : Nat) < 2 ^ 128 := by positivity
  have hdm := Nat.div_add_mod d 1000000000
  have hnsec : d % 1000000000 < 1000000000 := Nat.mod_lt _ (by norm_num)
  have hsec : d / 1000000000 + 1 ≤ 2 ^ 34 := by
    have : d / 1000000000 ≤ 2 ^ 63 / 1000000000 := Nat.div_le_div_right hd
    norm_num at this ⊢
    omega
  -- the fraction is at most one
  have hfrac : roundToDouble (d % 1000000000 * 2 ^ 128) 1000000000 ≤ 2 ^ 128 := by
    apply roundToDouble_le (by norm_num) _ (dvd_refl _)
    · apply highBit_sub_le
      calc d % 1000000000 * 2 ^ 128 / 1000000000
          ≤ 1000000000 * 2 ^ 128 / 1000000000 :=
            Nat.div_le_div_right (Nat.mul_le_mul_right _ hnsec.le)
        _ = 2 ^ 128 := Nat.mul_div_cancel_left _ (by norm_num)
        _ < 2 ^ 181 := Nat.pow_lt_pow_right (by norm_num) (by norm_num)
    · rw [Nat.mul_comm (2 ^ 128)]
      exact Nat.mul_le_mul_right _ hnsec.le
  have hsum : d / 1000000000 * 2 ^ 128 + roundToDouble (d % 1000000000 * 2 ^ 128) 1000000000
      ≤ (d / 1000000000 + 1) * 2 ^ 128 := by
    rw [Nat.add_mul, Nat.one_mul]
    exact Nat.add_le_add_left hfrac _
  have hbig : d / 1000000000 * 2 ^ 128 + roundToDouble (d % 1000000000 * 2 ^ 128) 1000000000
      < 2 ^ 181 := by
    calc _ ≤ (d / 1000000000 + 1) * 2 ^ 128 := hsum
      _ ≤ 2 ^ 34 * 2 ^ 128 := Nat.mul_le_mul_right _ hsec
      _ = 2 ^ 162 := by rw [← pow_add]
      _ < 2 ^ 181 := Nat.pow_lt_pow_right (by norm_num) (by norm_num)
  have hk : highBit ((d / 1000000000 * 2 ^ 128 +
      roundToDouble (d % 1000000000 * 2 ^ 128) 1000000000) / 1) - 52 ≤ 128 := by
    rw [Nat.div_one]; exact highBit_sub_le hbig
  unfold secondsMagnitude
  simp only [fxScale]
  refine ⟨?_, ?_⟩
  · rw [Nat.le_div_iff_mul_le hS]
    exact le_roundToDouble (by norm_num) (by rw [Nat.mul_one]; exact Nat.le_add_right _ _)
      (Dvd.intro_left _ rfl) hk
  · intro D hD
    by_cases h0 : d % 1000000000 = 0
    · have hfrac0 : roundToDouble (d % 1000000000 * 2 ^ 128) 1000000000 = 0 := by
        rw [h0, Nat.zero_mul]
        exact Nat.le_zero.mp
          (roundToDouble_le (k := 0) (by norm_num) (by norm_num) (by norm_num) (by
            simp [highBit, highBitAux]))
      rw [hfrac0, Nat.add_zero] at hk ⊢
      have htot : roundToDouble (d / 1000000000 * 2 ^ 128) 1 ≤ d / 1000000000 * 2 ^ 128 :=
        roundToDouble_le (by norm_num) (by rw [Nat.mul_one]) (Dvd.intro_left _ rfl) hk
      have hres : roundToDouble (d / 1000000000 * 2 ^ 128) 1 / 2 ^ 128 ≤ d / 1000000000 := by
        calc _ ≤ d / 1000000000 * 2 ^ 128 / 2 ^ 128 := Nat.div_le_div_right htot
          _ = d / 1000000000 := Nat.mul_div_cancel _ hS
      have : d / 1000000000 ≤ D := by omega
      exact le_trans hres this
    · have htot := roundToDouble_le (k := 128) (Nat.one_pos)
        (show d / 1000000000 * 2 ^ 128 +
            roundToDouble (d % 1000000000 * 2 ^ 128) 1000000000 ≤
            (d / 1000000000 + 1) * 2 ^ 128 * 1 by rw [Nat.mul_one]; exact hsum)
        (Dvd.intro_left _ rfl) hk
      have hres : roundToDouble (d / 1000000000 * 2 ^ 128 +
          roundToDouble (d % 1000000000 * 2 ^ 128) 1000000000) 1 / 2 ^ 128
          ≤ d / 1000000000 + 1 := by
        calc _ ≤ (d / 1000000000 + 1) * 2 ^ 128 / 2 ^ 128 := Nat.div_le_div_right htot
          _ = d / 1000000000 + 1 := Nat.mul_div_cancel _ hS
      have : d / 1000000000 + 1 ≤ D := by omega
      exact le_trans hres this

/-- A window of a whole number of seconds converts to that number. -/
theorem durationSeconds_whole {W : Int} (h : isInt64 (W * 1000000000)) :
    durationSeconds (W * 1000000000) = W := by
  unfold isInt64 at h
  have hd : (W * 1000000000).natAbs ≤ 2 ^ 63 := by omega
  have hb := secondsMagnitude_bounds hd
  have hlo := hb.1
  have hhi := hb.2 W.natAbs (by rw [Int.natAbs_mul]; rfl)
  have hdiv : (W * 1000000000).natAbs / 1000000000 = W.natAbs := by
    rw [Int.natAbs_mul]
    exact Nat.mul_div_cancel _ (by norm_num)
  rw [hdiv] at hlo
  have heq : secondsMagnitude (W * 1000000000).natAbs = W.natAbs := le_antisymm hhi hlo
  unfold durationSeconds
  rw [heq]
  split <;> omega

/-- The whole-second window never exceeds an integer number of seconds that
covers the configured duration. -/
theorem durationSeconds_le_of_le {timeFrame D : Int} (h : isInt64 timeFrame)
    (hD : timeFrame ≤ D * 1000000000) : durationSeconds timeFrame ≤ D := by
  unfold isInt64 at h
  have hd : timeFrame.natAbs ≤ 2 ^ 63 := by omega
  have hb := secondsMagnitude_bounds hd
  unfold durationSeconds
  split
  · have hDn : 0 ≤ D := by omega
    have := hb.2 D.toNat (by omega)
    omega
  · by_cases hDn : 0 ≤ D
    · omega
    · have hlo := hb.1
      have : (-D).toNat ≤ timeFrame.natAbs / 1000000000 := by
        rw [Nat.le_div_iff_mul_le (by norm_num)]
        omega
      omega

/-- The whole-second window is at least every integer number of seconds that
the configured duration covers. -/
theorem le_durationSeconds_of_le {timeFrame D : Int} (h : isInt64 timeFrame)
    (hD : D * 1000000000 ≤ timeFrame) : D ≤ durationSeconds timeFrame := by
  unfold isInt64 at h
  have hd : timeFrame.natAbs ≤ 2 ^ 63 := by omega
  have hb := secondsMagnitude_bounds hd
  unfold durationSeconds
  split
  · by_cases hDn : 0 ≤ D
    · have hlo := hb.1
      have : D.toNat ≤ timeFrame.natAbs / 1000000000 := by
        rw [Nat.le_div_iff_mul_le (by norm_num)]
        omega
      omega
    · omega
  · have hDn : D < 0 := by omega
    have := hb.2 (-D).toNat (by omega)
    omega

/-! ## Single evaluations -/

/-- C2: a registered user holds the counter `(n, s)` for the category and the
window has expired at `now`: the elapsed seconds `now - s` cover the configured
duration, or reach the whole-second window `buyCoffee` compares with (the
boundary included).  Then `buyCoffee` returns Allowed, and the cache and the
user file hold the counter `(1, now)` for the category, whatever `n` was: the
new window starts at `now`. -/
theorem C2_expired_window_resets (coffeeConfig : CoffeeConfig) (db : CoffeeDb)
    (userId : String) (a : UserCoffeeMembership) (coffee : CoffeeType) (pol : CoffeeQuota)
    (n : Nat) (s now : Int)
    (ha : hasAccount db userId a)
    (hp : coffeeQuotaConfig coffeeConfig coffee a.Membership = Except.ok pol)
    (hq : a.QuotaState coffee = some { AmountBought := n, StartBoughtTime := s })
    (htf : isInt64 pol.TimeFrame) (hd : isInt64 (now - s))
    (hexp : pol.TimeFrame ≤ (now - s) * 1000000000 ∨ durationSeconds pol.TimeFrame ≤ now - s) :
    (buyCoffee coffeeConfig db userId coffee now WriteOutcome.ok).limit = none ∧
    (buyCoffee coffeeConfig db userId coffee now WriteOutcome.ok).err = none ∧
    (buyCoffee coffeeConfig db userId coffee now WriteOutcome.ok).db =
      committed db userId
        (withCounter a coffee { AmountBought := 1, StartBoughtTime := now }) ∧
    cachedCounter (buyCoffee coffeeConfig db userId coffee now WriteOutcome.ok).db userId coffee
      = some { AmountBought := 1, StartBoughtTime := now } ∧
    storedCounter (buyCoffee coffeeConfig db userId coffee now WriteOutcome.ok).db userId coffee
      = some { AmountBought := 1, StartBoughtTime := now } := by
  have hW : durationSeconds pol.TimeFrame ≤ now - s := by
    rcases hexp with h | h
    · exact durationSeconds_le_of_le htf h
    · exact h
  have hnot : ¬ wrapInt64 (now - s) < durationSeconds pol.TimeFrame := by
    rw [wrapInt64_of_isInt64 hd]; omega
  rw [buyCoffee_of_policy ha hp, hq]
  simp only [hnot, if_false, SetQuotaState_cacheFill_ok]
  simp [committed, cachedCounter, storedCounter, withCounter, mapSet_same, userFile,
    storagePath]

/-- C3: a registered user whose tier has a policy for the category and who has
no counter for it is Allowed at any `now`, and afterwards the cache and the
user file hold exactly the counter `(1, now)`, for every allowance and window
of the policy. -/
theorem C3_first_purchase_allowed (coffeeConfig : CoffeeConfig) (db : CoffeeDb)
    (userId : String) (a : UserCoffeeMembership) (coffee : CoffeeType) (pol : CoffeeQuota)
    (now : Int)
    (ha : hasAccount db userId a)
    (hp : coffeeQuotaConfig coffeeConfig coffee a.Membership = Except.ok pol)
    (hq : a.QuotaState coffee = none) :
    (buyCoffee coffeeConfig db userId coffee now WriteOutcome.ok).limit = none ∧
    (buyCoffee coffeeConfig db userId coffee now WriteOutcome.ok).err = none ∧
    (buyCoffee coffeeConfig db userId coffee now WriteOutcome.ok).db =
      committed db userId
        (withCounter a coffee { AmountBought := 1, StartBoughtTime := now }) ∧
    cachedCounter (buyCoffee coffeeConfig db userId coffee now WriteOutcome.ok).db userId coffee
      = some { AmountBought := 1, StartBoughtTime := now } ∧
    storedCounter (buyCoffee coffeeConfig db userId coffee now WriteOutcome.ok).db userId coffee
      = some { AmountBought := 1, StartBoughtTime := now } := by
  rw [buyCoffee_of_policy ha hp, hq]
  simp only [SetQuotaState_cacheFill_ok]
  simp [committed, cachedCounter, storedCounter, withCounter, mapSet_same, userFile,
    storagePath]

/-- C4: a registered user holds the counter `(n, s)`, the window is still
active (`now - s` is below the window `W` in whole seconds) and the limit is
reached (`n` is at least the allowance).  Then `buyCoffee` returns
LimitExceeded with the category, `n` and `W - (now - s)`, the account of the
user and every file are as before, and a second evaluation at the same instant
returns the identical value. -/
theorem C4_limit_reached_is_read_only (coffeeConfig : CoffeeConfig) (db : CoffeeDb)
    (userId : String) (a : UserCoffeeMembership) (coffee : CoffeeType) (pol : CoffeeQuota)
    (n : Nat) (s now : Int) (w w2 : WriteOutcome)
    (ha : hasAccount db userId a)
    (hp : coffeeQuotaConfig coffeeConfig coffee a.Membership = Except.ok pol)
    (hq : a.QuotaState coffee = some { AmountBought := n, StartBoughtTime := s })
    (hd : isInt64 (now - s))
    (hav : isInt64 (durationSeconds pol.TimeFrame - (now - s)))
    (hactive : now - s < durationSeconds pol.TimeFrame)
    (hlimit : pol.Amount ≤ n) :
    (buyCoffee coffeeConfig db userId coffee now w).limit =
      some { Type_ := coffee, AmountBought := n,
             AvailableIn := durationSeconds pol.TimeFrame - (now - s) } ∧
    (buyCoffee coffeeConfig db userId coffee now w).err = none ∧
    (buyCoffee coffeeConfig db userId coffee now w).db = cacheFill db userId a ∧
    (GetUserData (buyCoffee coffeeConfig db userId coffee now w).db userId).2 = some a ∧
    (buyCoffee coffeeConfig db userId coffee now w).db.files = db.files ∧
    (∀ other, other ≠ userId →
      (buyCoffee coffeeConfig db userId coffee now w).db.users other = db.users other) ∧
    (buyCoffee coffeeConfig (buyCoffee coffeeConfig db userId coffee now w).db
        userId coffee now w2).limit =
      (buyCoffee coffeeConfig db userId coffee now w).limit ∧
    (buyCoffee coffeeConfig (buyCoffee coffeeConfig db userId coffee now w).db
        userId coffee now w2).err = none := by
  have hact : wrapInt64 (now - s) < durationSeconds pol.TimeFrame := by
    rw [wrapInt64_of_isInt64 hd]; exact hactive
  have h1 : buyCoffee coffeeConfig db userId coffee now w =
      { db := cacheFill db userId a
        limit := some { Type_ := coffee, AmountBought := n,
                        AvailableIn := durationSeconds pol.TimeFrame - (now - s) }
        err := none } := by
    rw [buyCoffee_of_policy ha hp, hq]
    simp only [hact, hlimit, if_true]
    rw [wrapInt64_of_isInt64 hd, wrapInt64_of_isInt64 hav]
  have ha2 : hasAccount (cacheFill db userId a) userId a := Or.inl (cacheFill_users db userId a)
  have h2 : buyCoffee coffeeConfig (cacheFill db userId a) userId coffee now w2 =
      { db := cacheFill db userId a
        limit := some { Type_ := coffee, AmountBought := n,
                        AvailableIn := durationSeconds pol.TimeFrame - (now - s) }
        err := none } := by
    rw [buyCoffee_of_policy ha2 hp, hq]
    simp only [hact, hlimit, if_true]
    rw [wrapInt64_of_isInt64 hd, wrapInt64_of_isInt64 hav,
      cacheFill_of_cached (cacheFill_users db userId a)]
  rw [h1]
  refine ⟨rfl, rfl, rfl, ?_, rfl, ?_, ?_, ?_⟩
  · show (GetUserData (cacheFill db userId a) userId).2 = some a
    rw [GetUserData_cached (cacheFill_users db userId a)]
  · intro other ho
    simp [cacheFill, mapSet_other, ho]
  · show (buyCoffee coffeeConfig (cacheFill db userId a) userId coffee now w2).limit = _
    rw [h2]
  · show (buyCoffee coffeeConfig (cacheFill db userId a) userId coffee now w2).err = _
    rw [h2]

/-- C6: for a user id absent from the cache and from the data directory,
`buyCoffee` returns the user-not-found error and no limit for every category,
and the store (cache and files) is exactly as before. -/
theorem C6_unknown_user_not_found (coffeeConfig : CoffeeConfig) (db : CoffeeDb)
    (userId : String) (coffee : CoffeeType) (now : Int) (w : WriteOutcome)
    (hc : db.users userId = none) (hf : userFile db userId = none) :
    (buyCoffee coffeeConfig db userId coffee now w).err = some (Error.userNotFound userId) ∧
    (buyCoffee coffeeConfig db userId coffee now w).limit = none ∧
    (buyCoffee coffeeConfig db userId coffee now w).db = db := by
  simp [buyCoffee, GetUserData_absent hc hf]

/-! ## Steps shared by the properties -/

theorem buyCoffee_first_ok {coffeeConfig : CoffeeConfig} {db : CoffeeDb} {userId : String}
    {a : UserCoffeeMembership} {coffee : CoffeeType} {pol : CoffeeQuota}
    (ha : hasAccount db userId a)
    (hp : coffeeQuotaConfig coffeeConfig coffee a.Membership = Except.ok pol)
    (hq : a.QuotaState coffee = none) (now : Int) :
    buyCoffee coffeeConfig db userId coffee now WriteOutcome.ok =
      { db := committed db userId
          (withCounter a coffee { AmountBought := 1, StartBoughtTime := now })
        limit := none, err := none } := by
  rw [buyCoffee_of_policy ha hp, hq]
  simp only [SetQuotaState_cacheFill_ok]

theorem buyCoffee_increment_ok {coffeeConfig : CoffeeConfig} {db : CoffeeDb} {userId : String}
    {a : UserCoffeeMembership} {coffee : CoffeeType} {pol : CoffeeQuota} {n : Nat} {s now : Int}
    (ha : hasAccount db userId a)
    (hp : coffeeQuotaConfig coffeeConfig coffee a.Membership = Except.ok pol)
    (hq : a.QuotaState coffee = some { AmountBought := n, StartBoughtTime := s })
    (hA : isUint32 pol.Amount) (hd : isInt64 (now - s))
    (hactive : now - s < durationSeconds pol.TimeFrame) (hn : n < pol.Amount) :
    buyCoffee coffeeConfig db userId coffee now WriteOutcome.ok =
      { db := committed db userId
          (withCounter a coffee { AmountBought := n + 1, StartBoughtTime := s })
        limit := none, err := none } := by
  have hact : wrapInt64 (now - s) < durationSeconds pol.TimeFrame := by
    rw [wrapInt64_of_isInt64 hd]; exact hactive
  have hnl : ¬ pol.Amount ≤ n := by omega
  have hwrap : wrapUint32 (n + 1) = n + 1 := by
    unfold isUint32 at hA
    unfold wrapUint32
    exact Nat.mod_eq_of_lt (by omega)
  rw [buyCoffee_of_policy ha hp, hq]
  simp only [hact, hnl, if_true, if_false, hwrap, SetQuotaState_cacheFill_ok]

theorem buyCoffee_limit {coffeeConfig : CoffeeConfig} {db : CoffeeDb} {userId : String}
    {a : UserCoffeeMembership} {coffee : CoffeeType} {pol : CoffeeQuota} {n : Nat} {s now : Int}
    (ha : hasAccount db userId a)
    (hp : coffeeQuotaConfig coffeeConfig coffee a.Membership = Except.ok pol)
    (hq : a.QuotaState coffee = some { AmountBought := n, StartBoughtTime := s })
    (hd : isInt64 (now - s)) (hav : isInt64 (durationSeconds pol.TimeFrame - (now - s)))
    (hactive : now - s < durationSeconds pol.TimeFrame) (hlimit : pol.Amount ≤ n)
    (w : WriteOutcome) :
    buyCoffee coffeeConfig db userId coffee now w =
      { db := cacheFill db userId a
        limit := some { Type_ := coffee, AmountBought := n,
                        AvailableIn := durationSeconds pol.TimeFrame - (now - s) }
        err := none } := by
  have hact : wrapInt64 (now - s) < durationSeconds pol.TimeFrame := by
    rw [wrapInt64_of_isInt64 hd]; exact hactive
  rw [buyCoffee_of_policy ha hp, hq]
  simp only [hact, hlimit, if_true]
  rw [wrapInt64_of_isInt64 hd, wrapInt64_of_isInt64 hav]

theorem committed_users (db : CoffeeDb) (userId : String) (a : UserCoffeeMembership) :
    (committed db userId a).users userId = some a := by
  simp [committed, mapSet_same]

theorem withCounter_same (a : UserCoffeeMembership) (coffee : CoffeeType)
    (qs : UserCoffeeQuota) : (withCounter a coffee qs).QuotaState coffee = some qs := by
  simp [withCounter, mapSet_same]

theorem withCounter_membership (a : UserCoffeeMembership) (coffee : CoffeeType)
    (qs : UserCoffeeQuota) : (withCounter a coffee qs).Membership = a.Membership := rfl

/-- C5 (as amended): a registered user holds the counter `(n, s)`, the elapsed
seconds `now - s` are below the window in whole seconds
(`int64(time.Duration(TimeFrame).Seconds())`) and `n` is below the allowance.
Then `buyCoffee` returns Allowed and the cache and the user file hold the
counter `(n + 1, s)`: the window start is unchanged. -/
theorem C5_active_window_increments (coffeeConfig : CoffeeConfig) (db : CoffeeDb)
    (userId : String) (a : UserCoffeeMembership) (coffee : CoffeeType) (pol : CoffeeQuota)
    (n : Nat) (s now : Int)
    (ha : hasAccount db userId a)
    (hp : coffeeQuotaConfig coffeeConfig coffee a.Membership = Except.ok pol)
    (hq : a.QuotaState coffee = some { AmountBought := n, StartBoughtTime := s })
    (hA : isUint32 pol.Amount) (hd : isInt64 (now - s))
    (hactive : now - s < durationSeconds pol.TimeFrame) (hn : n < pol.Amount) :
    (buyCoffee coffeeConfig db userId coffee now WriteOutcome.ok).limit = none ∧
    (buyCoffee coffeeConfig db userId coffee now WriteOutcome.ok).err = none ∧
    (buyCoffee coffeeConfig db userId coffee now WriteOutcome.ok).db =
      committed db userId
        (withCounter a coffee { AmountBought := n + 1, StartBoughtTime := s }) ∧
    cachedCounter (buyCoffee coffeeConfig db userId coffee now WriteOutcome.ok).db userId coffee
      = some { AmountBought := n + 1, StartBoughtTime := s } ∧
    storedCounter (buyCoffee coffeeConfig db userId coffee now WriteOutcome.ok).db userId coffee
      = some { AmountBought := n + 1, StartBoughtTime := s } := by
  rw [buyCoffee_increment_ok ha hp hq hA hd hactive hn]
  simp [committed, cachedCounter, storedCounter, withCounter, mapSet_same, userFile,
    storagePath]

/-- C5 fails as stated: with a window of 1.5 seconds and allowance 5, a user
who bought 1 Espresso at second 0 buys again at second 1.  The elapsed second is
less than the window and 1 is below 5, yet the counter becomes `(1, 1)`, not
`(2, 0)`: the window start moved. -/
theorem C5_counterexample :
    hasAccount (espressoDb 1 0) "u1" (espressoAccount 1 0) ∧
    coffeeQuotaConfig fractionalConfig Espresso (espressoAccount 1 0).Membership =
      Except.ok { Type_ := Espresso, Amount := 5, TimeFrame := 1500000000 } ∧
    ((1 : Int) - 0) * 1000000000 < 1500000000 ∧ (1 : Nat) < 5 ∧
    (buyCoffee fractionalConfig (espressoDb 1 0) "u1" Espresso 1 WriteOutcome.ok).limit = none ∧
    (buyCoffee fractionalConfig (espressoDb 1 0) "u1" Espresso 1 WriteOutcome.ok).err = none ∧
    cachedCounter (buyCoffee fractionalConfig (espressoDb 1 0) "u1" Espresso 1
      WriteOutcome.ok).db "u1" Espresso = some { AmountBought := 1, StartBoughtTime := 1 } ∧
    cachedCounter (buyCoffee fractionalConfig (espressoDb 1 0) "u1" Espresso 1
      WriteOutcome.ok).db "u1" Espresso ≠ some { AmountBought := 2, StartBoughtTime := 0 } := by
  refine ⟨Or.inl rfl, rfl, by decide, by decide, by decide, by decide, by decide, by decide⟩

/-! ## Runs inside one window -/

theorem buyCoffeeRun_append (coffeeConfig : CoffeeConfig) (userId : String)
    (coffee : CoffeeType) (ts us : List Int) : ∀ db : CoffeeDb,
    buyCoffeeRun coffeeConfig db userId coffee (ts ++ us) =
      ((buyCoffeeRun coffeeConfig (buyCoffeeRun coffeeConfig db userId coffee ts).1
          userId coffee us).1,
       (buyCoffeeRun coffeeConfig db userId coffee ts).2 ++
        (buyCoffeeRun coffeeConfig (buyCoffeeRun coffeeConfig db userId coffee ts).1
          userId coffee us).2) := by
  induction ts with
  | nil => intro db; simp [buyCoffeeRun]
  | cons t ts ih => intro db; simp [buyCoffeeRun, ih]

/-- Below the allowance and inside the window every call is Allowed and adds
one to the counter. -/
theorem buyCoffeeRun_increments {coffeeConfig : CoffeeConfig} {userId : String}
    {coffee : CoffeeType} {pol : CoffeeQuota} {s : Int} (hA : isUint32 pol.Amount)
    (ts : List Int) : ∀ (db : CoffeeDb) (a : UserCoffeeMembership) (n : Nat),
    db.users userId = some a →
    coffeeQuotaConfig coffeeConfig coffee a.Membership = Except.ok pol →
    a.QuotaState coffee = some { AmountBought := n, StartBoughtTime := s } →
    n + ts.length ≤ pol.Amount →
    (∀ t ∈ ts, isInt64 (t - s) ∧ t - s < durationSeconds pol.TimeFrame) →
    (buyCoffeeRun coffeeConfig db userId coffee ts).2 =
        List.replicate ts.length (none, none) ∧
      ∃ a1, (buyCoffeeRun coffeeConfig db userId coffee ts).1.users userId = some a1 ∧
        a1.Membership = a.Membership ∧
        a1.QuotaState coffee = some { AmountBought := n + ts.length, StartBoughtTime := s } := by
  induction ts with
  | nil =>
    intro db a n hu _ hq _ _
    exact ⟨rfl, a, hu, rfl, hq⟩
  | cons t ts ih =>
    intro db a n hu hp hq hlen hwin
    have ht := hwin t (List.mem_cons_self t ts)
    simp only [List.length_cons] at hlen
    have hstep := buyCoffee_increment_ok (Or.inl hu) hp hq hA ht.1 ht.2 (by omega)
    have hrec := ih (committed db userId
        (withCounter a coffee { AmountBought := n + 1, StartBoughtTime := s }))
      (withCounter a coffee { AmountBought := n + 1, StartBoughtTime := s }) (n + 1)
      (committed_users _ _ _) hp (withCounter_same _ _ _) (by omega)
      (fun u hu2 => hwin u (List.mem_cons_of_mem t hu2))
    obtain ⟨hres, a1, hu1, hm1, hq1⟩ := hrec
    simp only [buyCoffeeRun, hstep]
    refine ⟨?_, a1, hu1, hm1, ?_⟩
    · rw [hres]; rfl
    · rw [hq1]
      simp only [List.length_cons]
      congr 2
      omega

/-- C1: the policy has allowance `A ≥ 1` and a window of `W ≥ 1` whole
seconds, and a registered user has no counter for the category.  `A + 1` calls
of `buyCoffee` at clock readings `t_1 ≤ ... ≤ t_(A+1)` with
`t_(A+1) - t_1 < W`, every file write succeeding, return Allowed (nil limit,
nil error) `A` times and then LimitExceeded with `AmountBought = A` (and
`AvailableIn = W - (t_(A+1) - t_1)`). -/
theorem C1_allowance_then_limit (coffeeConfig : CoffeeConfig) (db : CoffeeDb)
    (userId : String) (a : UserCoffeeMembership) (coffee : CoffeeType) (pol : CoffeeQuota)
    (A : Nat) (W : Int) (ts : List Int) (t1 tl : Int)
    (ha : hasAccount db userId a)
    (hp : coffeeQuotaConfig coffeeConfig coffee a.Membership = Except.ok pol)
    (hAmount : pol.Amount = A) (hFrame : pol.TimeFrame = W * 1000000000)
    (hA : 1 ≤ A) (hA32 : isUint32 A) (hW : 1 ≤ W) (hW64 : isInt64 (W * 1000000000))
    (hq : a.QuotaState coffee = none)
    (hlen : ts.length = A + 1)
    (hsorted : List.Chain' (fun x y => x ≤ y) ts)
    (hfirst : ts.head? = some t1) (hlast : ts.getLast? = some tl)
    (hwin : tl - t1 < W) :
    (buyCoffeeRun coffeeConfig db userId coffee ts).2 =
      List.replicate A (none, none) ++
        [(some { Type_ := coffee, AmountBought := A, AvailableIn := W - (tl - t1) }, none)] := by
  -- shape of the list of clock readings
  obtain ⟨t0, rest, rfl⟩ : ∃ t0 rest, ts = t0 :: rest := by
    cases ts with
    | nil => simp at hlen
    | cons t0 rest => exact ⟨t0, rest, rfl⟩
  simp only [List.head?_cons, Option.some.injEq] at hfirst
  subst hfirst
  have hrest : rest ≠ [] := by
    intro h; subst h; simp at hlen; omega
  obtain ⟨mid, tl0, rfl⟩ : ∃ mid tl0, rest = mid ++ [tl0] :=
    ⟨rest.dropLast, rest.getLast hrest, (List.dropLast_append_getLast hrest).symm⟩
  have hl : tl0 = tl := by
    rw [← List.cons_append, List.getLast?_append] at hlast
    simpa using hlast
  subst hl
  have hmid : mid.length + 1 = A := by
    simp at hlen; omega
  -- order of the clock readings
  have hpw : List.Pairwise (fun x y => x ≤ y) (t0 :: (mid ++ [tl0])) :=
    List.chain'_iff_pairwise.mp hsorted
  have hW63 : W < 2 ^ 63 := by unfold isInt64 at hW64; omega
  have hlo : ∀ t ∈ mid ++ [tl0], t0 ≤ t := (List.pairwise_cons.mp hpw).1
  have hhi : ∀ t ∈ mid, t ≤ tl0 := by
    have h2 := (List.pairwise_cons.mp hpw).2
    rw [List.pairwise_append] at h2
    intro t ht
    exact h2.2.2 t ht tl0 (List.mem_singleton_self tl0)
  have hDur : durationSeconds pol.TimeFrame = W := by
    rw [hFrame]; exact durationSeconds_whole hW64
  -- the first call
  have hstep1 := buyCoffee_first_ok ha hp hq t0
  -- the calls up to the allowance
  have hA32p : isUint32 pol.Amount := by rw [hAmount]; exact hA32
  have hrun := buyCoffeeRun_increments (s := t0) hA32p mid
    (committed db userId (withCounter a coffee { AmountBought := 1, StartBoughtTime := t0 }))
    (withCounter a coffee { AmountBought := 1, StartBoughtTime := t0 }) 1
    (committed_users _ _ _) hp (withCounter_same _ _ _) (by omega)
    (by
      intro t ht
      have h1 := hlo t (List.mem_append_left _ ht)
      have h2 := hhi t ht
      rw [hDur]
      unfold isInt64
      omega)
  obtain ⟨hres, a1, hu1, hm1, hq1⟩ := hrun
  -- the call after the allowance
  have h0l : t0 ≤ tl0 := hlo tl0 (List.mem_append_right _ (List.mem_singleton_self tl0))
  have hq1A : a1.QuotaState coffee = some { AmountBought := A, StartBoughtTime := t0 } := by
    rw [hq1]; congr 2; omega
  have hlim := buyCoffee_limit (Or.inl hu1) (hm1 ▸ hp) hq1A
    (show isInt64 (tl0 - t0) by unfold isInt64; omega)
    (by rw [hDur]; unfold isInt64; omega)
    (by rw [hDur]; exact hwin) (by omega) WriteOutcome.ok
  simp only [buyCoffeeRun, hstep1]
  rw [buyCoffeeRun_append]
  simp only [buyCoffeeRun, hlim, hres, hDur]
  rw [← hmid, List.replicate_succ]
  rfl

/-! ## Registration, failures and configuration -/

/-- C7: for a non-empty user id that already has an account (in the cache, or
as a decodable file) and every tier, `apiRegisterUser` answers "this user is
registered already"; no file changes, the account of the user is the one it
was, a store that had the account cached is unchanged, and every other cache
entry is as before. -/
theorem C7_register_existing_user_rejected (db : CoffeeDb) (userId : String)
    (a : UserCoffeeMembership) (membership : MembershipType) (w : WriteOutcome)
    (hid : userId.length ≠ 0) (ha : hasAccount db userId a) :
    (apiRegisterUser db { UserId := userId, Membership := membership } w).2 =
      ApiResponse.alreadyRegistered ∧
    (apiRegisterUser db { UserId := userId, Membership := membership } w).1.files = db.files ∧
    (GetUserData (apiRegisterUser db { UserId := userId, Membership := membership } w).1
      userId).2 = some a ∧
    (db.users userId = some a →
      (apiRegisterUser db { UserId := userId, Membership := membership } w).1 = db) ∧
    (∀ other, other ≠ userId →
      (apiRegisterUser db { UserId := userId, Membership := membership } w).1.users other =
        db.users other) := by
  have h : apiRegisterUser db { UserId := userId, Membership := membership } w =
      (cacheFill db userId a, ApiResponse.alreadyRegistered) := by
    simp [apiRegisterUser, hid, GetUserData_of_hasAccount ha]
  rw [h]
  refine ⟨rfl, rfl, ?_, ?_, ?_⟩
  · show (GetUserData (cacheFill db userId a) userId).2 = some a
    rw [GetUserData_cached (cacheFill_users db userId a)]
  · intro hc
    exact cacheFill_of_cached hc
  · intro other ho
    simp [cacheFill, mapSet_other, ho]

theorem saveUserData_failed (db : CoffeeDb) (userId : String) (a : UserCoffeeMembership)
    {w : WriteOutcome} (hw : w ≠ WriteOutcome.ok) :
    (saveUserData db userId a w).2 = some Error.writeFailed ∧
      (saveUserData db userId a w).1.users = db.users := by
  cases w with
  | ok => exact absurd rfl hw
  | failedUntouched => exact ⟨rfl, rfl⟩
  | failedTruncated => exact ⟨rfl, rfl⟩

theorem saveUserData_err (db : CoffeeDb) (userId : String) (a : UserCoffeeMembership)
    (w : WriteOutcome) :
    (saveUserData db userId a w).2 = none ∨
      (saveUserData db userId a w).2 = some Error.writeFailed := by
  cases w with
  | ok => exact Or.inl rfl
  | failedUntouched => exact Or.inr rfl
  | failedTruncated => exact Or.inr rfl

theorem SetQuotaState_cacheFill_failed (db : CoffeeDb) (userId : String)
    (a : UserCoffeeMembership) (coffee : CoffeeType) (qs : UserCoffeeQuota)
    {w : WriteOutcome} (hw : w ≠ WriteOutcome.ok) :
    (SetQuotaState (cacheFill db userId a) userId coffee qs w).2 = some Error.writeFailed ∧
      (SetQuotaState (cacheFill db userId a) userId coffee qs w).1.users =
        (SetQuotaState (cacheFill db userId a) userId coffee qs WriteOutcome.ok).1.users := by
  rw [SetQuotaState_cacheFill_ok, SetQuotaState_cached (cacheFill_users db userId a)]
  refine ⟨(saveUserData_failed _ _ _ hw).1, ?_⟩
  rw [(saveUserData_failed _ _ _ hw).2]
  simp [cacheFill, committed, mapSet_mapSet]

/-- C8 (as amended): a registered user whose tier has a policy buys, the call
is not answered LimitExceeded (so it writes the user file), and the write
fails.  Then `buyCoffee` returns the write error and no limit, while the cache
is exactly what it is after a successful write: the incremented or reset
counter stays in memory although it was not persisted. -/
theorem C8_failed_write_returns_error (coffeeConfig : CoffeeConfig) (db : CoffeeDb)
    (userId : String) (a : UserCoffeeMembership) (coffee : CoffeeType) (pol : CoffeeQuota)
    (now : Int) (w : WriteOutcome)
    (ha : hasAccount db userId a)
    (hp : coffeeQuotaConfig coffeeConfig coffee a.Membership = Except.ok pol)
    (hw : w ≠ WriteOutcome.ok)
    (hnolimit : (buyCoffee coffeeConfig db userId coffee now w).limit = none) :
    (buyCoffee coffeeConfig db userId coffee now w).err = some Error.writeFailed ∧
    (buyCoffee coffeeConfig db userId coffee now WriteOutcome.ok).err = none ∧
    (buyCoffee coffeeConfig db userId coffee now WriteOutcome.ok).limit = none ∧
    (buyCoffee coffeeConfig db userId coffee now w).db.users =
      (buyCoffee coffeeConfig db userId coffee now WriteOutcome.ok).db.users ∧
    cachedCounter (buyCoffee coffeeConfig db userId coffee now w).db userId coffee =
      cachedCounter (buyCoffee coffeeConfig db userId coffee now WriteOutcome.ok).db
        userId coffee := by
  have key : (buyCoffee coffeeConfig db userId coffee now w).err = some Error.writeFailed ∧
      (buyCoffee coffeeConfig db userId coffee now WriteOutcome.ok).err = none ∧
      (buyCoffee coffeeConfig db userId coffee now WriteOutcome.ok).limit = none ∧
      (buyCoffee coffeeConfig db userId coffee now w).db.users =
        (buyCoffee coffeeConfig db userId coffee now WriteOutcome.ok).db.users := by
    rw [buyCoffee_of_policy ha hp] at hnolimit ⊢
    rw [buyCoffee_of_policy ha hp]
    cases hq : a.QuotaState coffee with
    | none =>
      simp only [SetQuotaState_cacheFill_ok]
      exact ⟨(SetQuotaState_cacheFill_failed _ _ _ _ _ hw).1, trivial, trivial,
        by rw [(SetQuotaState_cacheFill_failed _ _ _ _ _ hw).2, SetQuotaState_cacheFill_ok]⟩
    | some q =>
      rw [hq] at hnolimit
      simp only at hnolimit ⊢
      by_cases h1 : wrapInt64 (now - q.StartBoughtTime) < durationSeconds pol.TimeFrame
      · by_cases h2 : pol.Amount ≤ q.AmountBought
        · simp [h1, h2] at hnolimit
        · simp only [h1, h2, if_true, if_false, SetQuotaState_cacheFill_ok]
          exact ⟨(SetQuotaState_cacheFill_failed _ _ _ _ _ hw).1, trivial, trivial,
            by rw [(SetQuotaState_cacheFill_failed _ _ _ _ _ hw).2,
              SetQuotaState_cacheFill_ok]⟩
      · simp only [h1, if_false, SetQuotaState_cacheFill_ok]
        exact ⟨(SetQuotaState_cacheFill_failed _ _ _ _ _ hw).1, trivial, trivial,
          by rw [(SetQuotaState_cacheFill_failed _ _ _ _ _ hw).2, SetQuotaState_cacheFill_ok]⟩
  refine ⟨key.1, key.2.1, key.2.2.1, key.2.2.2, ?_⟩
  unfold cachedCounter
  rw [key.2.2.2]

/-- C8 fails as stated: user "u1" has no Espresso counter in memory; the buy
whose file write fails returns the write error, and afterwards the cache holds
the counter `(1, 0)` while the user file still has none. -/
theorem C8_counterexample :
    (buyCoffee customConfig registeredDb "u1" Espresso 0 WriteOutcome.failedUntouched).err =
      some Error.writeFailed ∧
    cachedCounter registeredDb "u1" Espresso = none ∧
    cachedCounter (buyCoffee customConfig registeredDb "u1" Espresso 0
      WriteOutcome.failedUntouched).db "u1" Espresso =
      some { AmountBought := 1, StartBoughtTime := 0 } ∧
    storedCounter (buyCoffee customConfig registeredDb "u1" Espresso 0
      WriteOutcome.failedUntouched).db "u1" Espresso = none := by
  refine ⟨by decide, by decide, by decide, by decide⟩

/-- The two steps of the interleaving model compose to `buyCoffee`. -/
theorem buyCoffee_eq_decide_commit (coffeeConfig : CoffeeConfig) (db : CoffeeDb)
    (userId : String) (coffee : CoffeeType) (now : Int) (w : WriteOutcome) :
    buyCoffee coffeeConfig db userId coffee now w =
      buyCoffeeCommit (buyCoffeeDecide coffeeConfig db userId coffee now).1 userId coffee
        (buyCoffeeDecide coffeeConfig db userId coffee now).2 w := by
  unfold buyCoffee buyCoffeeDecide
  rcases hg : GetUserData db userId with ⟨db1, _ | qs⟩
  · rfl
  · simp only
    cases hc : coffeeQuotaConfig coffeeConfig coffee qs.Membership with
    | error e => rfl
    | ok pol =>
      simp only
      cases hq : qs.QuotaState coffee with
      | none => rfl
      | some q =>
        simp only
        split
        · split <;> rfl
        · rfl

/-- C9 fails on the code: allowance 1, user "u1" without a counter, two calls
at second 0.  When both calls reach their return statement before either
executes it, both return Allowed: 2 Allowed and 0 LimitExceeded, where
`min 2 1 = 1` Allowed and 1 LimitExceeded are required; the persisted
`AmountBought` is 1.  Run one after the other, the same calls give one Allowed
and one LimitExceeded. -/
theorem C9_lost_update_schedule :
    (runSchedule customConfig "u1" Espresso
      [SchedStep.decide 0 0, SchedStep.decide 1 0, SchedStep.commit 0, SchedStep.commit 1]
      (schedStart registeredDb)).returned = [(1, none, none), (0, none, none)] ∧
    allowedCount (runSchedule customConfig "u1" Espresso
      [SchedStep.decide 0 0, SchedStep.decide 1 0, SchedStep.commit 0, SchedStep.commit 1]
      (schedStart registeredDb)).returned = 2 ∧
    limitExceededCount (runSchedule customConfig "u1" Espresso
      [SchedStep.decide 0 0, SchedStep.decide 1 0, SchedStep.commit 0, SchedStep.commit 1]
      (schedStart registeredDb)).returned = 0 ∧
    storedCounter (runSchedule customConfig "u1" Espresso
      [SchedStep.decide 0 0, SchedStep.decide 1 0, SchedStep.commit 0, SchedStep.commit 1]
      (schedStart registeredDb)).db "u1" Espresso =
      some { AmountBought := 1, StartBoughtTime := 0 } ∧
    min 2 1 = 1 ∧
    (runSchedule customConfig "u1" Espresso
      [SchedStep.decide 0 0, SchedStep.commit 0, SchedStep.decide 1 0, SchedStep.commit 1]
      (schedStart registeredDb)).returned =
      [(1, some { Type_ := Espresso, AmountBought := 1, AvailableIn := 10 }, none),
       (0, none, none)] := by
  refine ⟨by decide, by decide, by decide, by decide, by decide, by decide⟩

theorem coffeeQuotaConfig_invalidMembership (coffeeConfig : CoffeeConfig) (coffee : CoffeeType)
    (membership : MembershipType) :
    coffeeQuotaConfig coffeeConfig coffee membership = Except.error Error.invalidMembership ↔
      coffeeConfig membership = none := by
  unfold coffeeQuotaConfig
  cases hm : coffeeConfig membership with
  | none => simp
  | some cq =>
    simp only
    cases hfind : cq.Quota.find? (fun cQuotaItem => cQuotaItem.Type_ == coffee) <;> simp

theorem coffeeQuotaConfig_missing (coffeeConfig : CoffeeConfig) (coffee : CoffeeType)
    (membership : MembershipType) :
    coffeeQuotaConfig coffeeConfig coffee membership =
        Except.error Error.invalidCoffeeOrConfigMissing ↔
      ∃ cq, coffeeConfig membership = some cq ∧ ∀ q ∈ cq.Quota, q.Type_ ≠ coffee := by
  unfold coffeeQuotaConfig
  cases hm : coffeeConfig membership with
  | none => simp
  | some cq =>
    simp only
    cases hfind : cq.Quota.find? (fun cQuotaItem => cQuotaItem.Type_ == coffee) with
    | none =>
      rw [List.find?_eq_none] at hfind
      simp only [true_iff]
      exact ⟨cq, rfl, fun q hq => by simpa using hfind q hq⟩
    | some q =>
      have hq := List.find?_some hfind
      have hmem := List.mem_of_find?_eq_some hfind
      simp only [beq_iff_eq] at hq
      simp only [false_iff, reduceCtorEq]
      rintro ⟨cq1, h1, h2⟩
      simp only [Option.some.injEq] at h1
      subst h1
      exact h2 q hmem hq

theorem coffeeQuotaConfig_first (coffeeConfig : CoffeeConfig) (coffee : CoffeeType)
    (membership : MembershipType) (cq : CoffeeQuotaPerMembership)
    (before after : List CoffeeQuota) (q : CoffeeQuota)
    (hm : coffeeConfig membership = some cq) (hl : cq.Quota = before ++ q :: after)
    (hb : ∀ x ∈ before, x.Type_ ≠ coffee) (hq : q.Type_ = coffee) :
    coffeeQuotaConfig coffeeConfig coffee membership = Except.ok q := by
  unfold coffeeQuotaConfig
  simp only [hm, hl]
  clear hl
  have hfind : (before ++ q :: after).find? (fun cQuotaItem => cQuotaItem.Type_ == coffee)
      = some q := by
    induction before with
    | nil => simp [List.find?, hq]
    | cons x xs ih =>
      have hx : x.Type_ ≠ coffee := hb x (List.mem_cons_self x xs)
      simp only [List.cons_append, List.find?_cons]
      have : (x.Type_ == coffee) = false := by simpa using hx
      rw [this]
      exact ih (fun y hy => hb y (List.mem_cons_of_mem x hy))
  rw [hfind]

theorem buyCoffee_of_config_error {coffeeConfig : CoffeeConfig} {db : CoffeeDb}
    {userId : String} {a : UserCoffeeMembership} {coffee : CoffeeType} {e : Error}
    (ha : hasAccount db userId a)
    (hp : coffeeQuotaConfig coffeeConfig coffee a.Membership = Except.error e)
    (now : Int) (w : WriteOutcome) :
    buyCoffee coffeeConfig db userId coffee now w =
      { db := cacheFill db userId a, limit := none, err := some e } := by
  simp only [buyCoffee, GetUserData_of_hasAccount ha, hp]

theorem buyCoffee_err_of_policy {coffeeConfig : CoffeeConfig} {db : CoffeeDb}
    {userId : String} {a : UserCoffeeMembership} {coffee : CoffeeType} {pol : CoffeeQuota}
    (ha : hasAccount db userId a)
    (hp : coffeeQuotaConfig coffeeConfig coffee a.Membership = Except.ok pol)
    (now : Int) (w : WriteOutcome) :
    (buyCoffee coffeeConfig db userId coffee now w).err = none ∨
      (buyCoffee coffeeConfig db userId coffee now w).err = some Error.writeFailed := by
  have hset : ∀ qs, (SetQuotaState (cacheFill db userId a) userId coffee qs w).2 = none ∨
      (SetQuotaState (cacheFill db userId a) userId coffee qs w).2 = some Error.writeFailed := by
    intro qs
    rw [SetQuotaState_cached (cacheFill_users db userId a)]
    exact saveUserData_err _ _ _ _
  rw [buyCoffee_of_policy ha hp]
  cases hq : a.QuotaState coffee with
  | none => exact hset _
  | some q =>
    simp only
    split
    · split
      · exact Or.inl rfl
      · exact hset _
    · exact hset _

/-- C10: for a registered user, `buyCoffee` returns "invalid Membership"
exactly when the policy table has no entry for the tier of the user, and
"invalid coffee type or configuration missing" exactly when the entry of the
tier lists no quota item of the category; otherwise the first quota item of the
category in the list is the policy used (the call behaves as under a table
holding that item alone).  Whenever it returns one of the two configuration
errors there is no limit, no file changes and the account of the user is the
one it was. -/
theorem C10_configuration_error (coffeeConfig : CoffeeConfig) (db : CoffeeDb)
    (userId : String) (a : UserCoffeeMembership) (coffee : CoffeeType) (now : Int)
    (w : WriteOutcome) (ha : hasAccount db userId a) :
    ((buyCoffee coffeeConfig db userId coffee now w).err = some Error.invalidMembership ↔
      coffeeConfig a.Membership = none) ∧
    ((buyCoffee coffeeConfig db userId coffee now w).err =
        some Error.invalidCoffeeOrConfigMissing ↔
      ∃ cq, coffeeConfig a.Membership = some cq ∧ ∀ q ∈ cq.Quota, q.Type_ ≠ coffee) ∧
    (∀ (cq : CoffeeQuotaPerMembership) (before after : List CoffeeQuota) (q : CoffeeQuota),
      coffeeConfig a.Membership = some cq → cq.Quota = before ++ q :: after →
      (∀ x ∈ before, x.Type_ ≠ coffee) → q.Type_ = coffee →
      buyCoffee coffeeConfig db userId coffee now w =
        buyCoffee (singlePolicy q) db userId coffee now w) ∧
    ((buyCoffee coffeeConfig db userId coffee now w).err = some Error.invalidMembership ∨
      (buyCoffee coffeeConfig db userId coffee now w).err =
        some Error.invalidCoffeeOrConfigMissing →
      (buyCoffee coffeeConfig db userId coffee now w).limit = none ∧
      (buyCoffee coffeeConfig db userId coffee now w).db.files = db.files ∧
      (GetUserData (buyCoffee coffeeConfig db userId coffee now w).db userId).2 = some a ∧
      (db.users userId = some a → (buyCoffee coffeeConfig db userId coffee now w).db = db) ∧
      (∀ other, other ≠ userId →
        (buyCoffee coffeeConfig db userId coffee now w).db.users other = db.users other)) := by
  have hfirst : ∀ (cq : CoffeeQuotaPerMembership) (before after : List CoffeeQuota)
      (q : CoffeeQuota), coffeeConfig a.Membership = some cq →
      cq.Quota = before ++ q :: after → (∀ x ∈ before, x.Type_ ≠ coffee) → q.Type_ = coffee →
      buyCoffee coffeeConfig db userId coffee now w =
        buyCoffee (singlePolicy q) db userId coffee now w := by
    intro cq before after q hm hl hb hq
    have h1 := coffeeQuotaConfig_first coffeeConfig coffee a.Membership cq before after q
      hm hl hb hq
    have h2 := coffeeQuotaConfig_first (singlePolicy q) coffee a.Membership
      { Membership := a.Membership, Quota := [q] } [] [] q rfl rfl (by simp) hq
    rw [buyCoffee_of_policy ha h1, buyCoffee_of_policy ha h2]
  have hm := coffeeQuotaConfig_invalidMembership coffeeConfig coffee a.Membership
  have hc := coffeeQuotaConfig_missing coffeeConfig coffee a.Membership
  cases hcfg : coffeeQuotaConfig coffeeConfig coffee a.Membership with
  | error e =>
    rw [hcfg] at hm hc
    rw [buyCoffee_of_config_error ha hcfg] at hfirst ⊢
    refine ⟨?_, ?_, hfirst, ?_⟩
    · rw [← hm]; simp
    · rw [← hc]; simp
    · intro _
      refine ⟨rfl, rfl, ?_, ?_, ?_⟩
      · show (GetUserData (cacheFill db userId a) userId).2 = some a
        rw [GetUserData_cached (cacheFill_users db userId a)]
      · intro hu
        exact cacheFill_of_cached hu
      · intro other ho
        simp [cacheFill, mapSet_other, ho]
  | ok pol =>
    rw [hcfg] at hm hc
    have herr := buyCoffee_err_of_policy ha hcfg now w
    have hn1 : (buyCoffee coffeeConfig db userId coffee now w).err ≠
        some Error.invalidMembership := by
      rcases herr with h | h <;> rw [h] <;> simp
    have hn2 : (buyCoffee coffeeConfig db userId coffee now w).err ≠
        some Error.invalidCoffeeOrConfigMissing := by
      rcases herr with h | h <;> rw [h] <;> simp
    refine ⟨?_, ?_, hfirst, ?_⟩
    · rw [← hm]; simp [hn1]
    · rw [← hc]; simp [hn2]
    · intro h
      rcases h with h | h
      · exact absurd h hn1
      · exact absurd h hn2

/-! ## The properties on the test scenarios -/

/-- The Americano scenario: allowance 2 per 10 seconds, buys at seconds 0, 3
and 9. -/
theorem C1_witness :
    (buyCoffeeRun customConfig registeredDb "u1" Americano [0, 3, 9]).2 =
      List.replicate 2 (none, none) ++
        [(some { Type_ := Americano, AmountBought := 2, AvailableIn := 10 - (9 - 0) }, none)] :=
  C1_allowance_then_limit customConfig registeredDb "u1"
    { Membership := Basic, QuotaState := mapEmpty } Americano
    { Type_ := Americano, Amount := 2, TimeFrame := 10 * 1000000000 } 2 10 [0, 3, 9] 0 9
    (Or.inl rfl) rfl rfl rfl (by decide) (by decide) (by decide) (by decide) rfl rfl
    (by simp) rfl rfl (by decide)

/-- The reset scenario at the boundary: window 10 seconds, counter `(1, 0)`,
buy at second 10. -/
theorem C2_witness :
    (buyCoffee customConfig (espressoDb 1 0) "u1" Espresso 10 WriteOutcome.ok).limit = none ∧
    (buyCoffee customConfig (espressoDb 1 0) "u1" Espresso 10 WriteOutcome.ok).err = none ∧
    (buyCoffee customConfig (espressoDb 1 0) "u1" Espresso 10 WriteOutcome.ok).db =
      committed (espressoDb 1 0) "u1"
        (withCounter (espressoAccount 1 0) Espresso
          { AmountBought := 1, StartBoughtTime := 10 }) ∧
    cachedCounter (buyCoffee customConfig (espressoDb 1 0) "u1" Espresso 10
      WriteOutcome.ok).db "u1" Espresso = some { AmountBought := 1, StartBoughtTime := 10 } ∧
    storedCounter (buyCoffee customConfig (espressoDb 1 0) "u1" Espresso 10
      WriteOutcome.ok).db "u1" Espresso = some { AmountBought := 1, StartBoughtTime := 10 } :=
  C2_expired_window_resets customConfig (espressoDb 1 0) "u1" (espressoAccount 1 0) Espresso
    { Type_ := Espresso, Amount := 1, TimeFrame := 10 * 1000000000 } 1 0 10
    (Or.inl rfl) rfl rfl (by decide) (by decide) (Or.inl (by decide))

/-- The first Espresso of the freshly registered user. -/
theorem C3_witness :
    (buyCoffee customConfig registeredDb "u1" Espresso 100 WriteOutcome.ok).limit = none ∧
    (buyCoffee customConfig registeredDb "u1" Espresso 100 WriteOutcome.ok).err = none ∧
    (buyCoffee customConfig registeredDb "u1" Espresso 100 WriteOutcome.ok).db =
      committed registeredDb "u1"
        (withCounter { Membership := Basic, QuotaState := mapEmpty } Espresso
          { AmountBought := 1, StartBoughtTime := 100 }) ∧
    cachedCounter (buyCoffee customConfig registeredDb "u1" Espresso 100
      WriteOutcome.ok).db "u1" Espresso = some { AmountBought := 1, StartBoughtTime := 100 } ∧
    storedCounter (buyCoffee customConfig registeredDb "u1" Espresso 100
      WriteOutcome.ok).db "u1" Espresso = some { AmountBought := 1, StartBoughtTime := 100 } :=
  C3_first_purchase_allowed customConfig registeredDb "u1"
    { Membership := Basic, QuotaState := mapEmpty } Espresso
    { Type_ := Espresso, Amount := 1, TimeFrame := 10 * 1000000000 } 100
    (Or.inl rfl) rfl rfl

/-- The scenario of the specification: allowance 1, window 10 seconds, bought
at second 0, asked again at second 5. -/
theorem C4_witness :
    (buyCoffee customConfig (espressoDb 1 0) "u1" Espresso 5 WriteOutcome.ok).limit =
      some { Type_ := Espresso, AmountBought := 1, AvailableIn := 5 } ∧
    (buyCoffee customConfig (espressoDb 1 0) "u1" Espresso 5 WriteOutcome.ok).err = none ∧
    (buyCoffee customConfig (espressoDb 1 0) "u1" Espresso 5 WriteOutcome.ok).db =
      cacheFill (espressoDb 1 0) "u1" (espressoAccount 1 0) ∧
    (GetUserData (buyCoffee customConfig (espressoDb 1 0) "u1" Espresso 5
      WriteOutcome.ok).db "u1").2 = some (espressoAccount 1 0) ∧
    (buyCoffee customConfig (espressoDb 1 0) "u1" Espresso 5 WriteOutcome.ok).db.files =
      (espressoDb 1 0).files ∧
    (∀ other, other ≠ "u1" →
      (buyCoffee customConfig (espressoDb 1 0) "u1" Espresso 5 WriteOutcome.ok).db.users other =
        (espressoDb 1 0).users other) ∧
    (buyCoffee customConfig (buyCoffee customConfig (espressoDb 1 0) "u1" Espresso 5
        WriteOutcome.ok).db "u1" Espresso 5 WriteOutcome.ok).limit =
      (buyCoffee customConfig (espressoDb 1 0) "u1" Espresso 5 WriteOutcome.ok).limit ∧
    (buyCoffee customConfig (buyCoffee customConfig (espressoDb 1 0) "u1" Espresso 5
        WriteOutcome.ok).db "u1" Espresso 5 WriteOutcome.ok).err = none :=
  C4_limit_reached_is_read_only customConfig (espressoDb 1 0) "u1" (espressoAccount 1 0)
    Espresso { Type_ := Espresso, Amount := 1, TimeFrame := 10 * 1000000000 } 1 0 5
    WriteOutcome.ok WriteOutcome.ok (Or.inl rfl) rfl rfl (by decide) (by decide) (by decide)
    (by decide)

/-- Allowance 5 per 1.5 seconds: the second buy in the second of the first. -/
theorem C5_witness :
    (buyCoffee fractionalConfig (espressoDb 1 0) "u1" Espresso 0 WriteOutcome.ok).limit = none ∧
    (buyCoffee fractionalConfig (espressoDb 1 0) "u1" Espresso 0 WriteOutcome.ok).err = none ∧
    (buyCoffee fractionalConfig (espressoDb 1 0) "u1" Espresso 0 WriteOutcome.ok).db =
      committed (espressoDb 1 0) "u1"
        (withCounter (espressoAccount 1 0) Espresso
          { AmountBought := 1 + 1, StartBoughtTime := 0 }) ∧
    cachedCounter (buyCoffee fractionalConfig (espressoDb 1 0) "u1" Espresso 0
      WriteOutcome.ok).db "u1" Espresso = some { AmountBought := 1 + 1, StartBoughtTime := 0 } ∧
    storedCounter (buyCoffee fractionalConfig (espressoDb 1 0) "u1" Espresso 0
      WriteOutcome.ok).db "u1" Espresso = some { AmountBought := 1 + 1, StartBoughtTime := 0 } :=
  C5_active_window_increments fractionalConfig (espressoDb 1 0) "u1" (espressoAccount 1 0)
    Espresso { Type_ := Espresso, Amount := 5, TimeFrame := 1500000000 } 1 0 0
    (Or.inl rfl) rfl rfl (by decide) (by decide) (by decide) (by decide)

/-- The scenario of the specification: an unknown user asks for an Espresso. -/
theorem C6_witness :
    (buyCoffee customConfig registeredDb "unknown-user" Espresso 0 WriteOutcome.ok).err =
      some (Error.userNotFound "unknown-user") ∧
    (buyCoffee customConfig registeredDb "unknown-user" Espresso 0 WriteOutcome.ok).limit
      = none ∧
    (buyCoffee customConfig registeredDb "unknown-user" Espresso 0 WriteOutcome.ok).db =
      registeredDb :=
  C6_unknown_user_not_found customConfig registeredDb "unknown-user" Espresso 0
    WriteOutcome.ok rfl rfl

/-- The scenario of the specification: "u1" is registered a second time. -/
theorem C7_witness :
    (apiRegisterUser registeredDb { UserId := "u1", Membership := Basic } WriteOutcome.ok).2 =
      ApiResponse.alreadyRegistered ∧
    (apiRegisterUser registeredDb { UserId := "u1", Membership := Basic }
      WriteOutcome.ok).1.files = registeredDb.files ∧
    (GetUserData (apiRegisterUser registeredDb { UserId := "u1", Membership := Basic }
      WriteOutcome.ok).1 "u1").2 = some { Membership := Basic, QuotaState := mapEmpty } ∧
    (registeredDb.users "u1" = some { Membership := Basic, QuotaState := mapEmpty } →
      (apiRegisterUser registeredDb { UserId := "u1", Membership := Basic }
        WriteOutcome.ok).1 = registeredDb) ∧
    (∀ other, other ≠ "u1" →
      (apiRegisterUser registeredDb { UserId := "u1", Membership := Basic }
        WriteOutcome.ok).1.users other = registeredDb.users other) :=
  C7_register_existing_user_rejected registeredDb "u1"
    { Membership := Basic, QuotaState := mapEmpty } Basic WriteOutcome.ok (by decide)
    (Or.inl rfl)

/-- The first Espresso of "u1" when the user file cannot be opened. -/
theorem C8_witness :
    (buyCoffee customConfig registeredDb "u1" Espresso 0 WriteOutcome.failedUntouched).err =
      some Error.writeFailed ∧
    (buyCoffee customConfig registeredDb "u1" Espresso 0 WriteOutcome.ok).err = none ∧
    (buyCoffee customConfig registeredDb "u1" Espresso 0 WriteOutcome.ok).limit = none ∧
    (buyCoffee customConfig registeredDb "u1" Espresso 0
      WriteOutcome.failedUntouched).db.users =
      (buyCoffee customConfig registeredDb "u1" Espresso 0 WriteOutcome.ok).db.users ∧
    cachedCounter (buyCoffee customConfig registeredDb "u1" Espresso 0
      WriteOutcome.failedUntouched).db "u1" Espresso =
      cachedCounter (buyCoffee customConfig registeredDb "u1" Espresso 0
        WriteOutcome.ok).db "u1" Espresso :=
  C8_failed_write_returns_error customConfig registeredDb "u1"
    { Membership := Basic, QuotaState := mapEmpty } Espresso
    { Type_ := Espresso, Amount := 1, TimeFrame := 10 * 1000000000 } 0
    WriteOutcome.failedUntouched (Or.inl rfl) rfl (by decide) (by decide)

/-- The table of the test has no entry for the tier Coffee Lover: a cached
Coffee Lover gets "invalid Membership". -/
theorem C10_witness :
    (buyCoffee customConfig
      (cacheFill registeredDb "u2" { Membership := CoffeeLover, QuotaState := mapEmpty })
      "u2" Espresso 0 WriteOutcome.ok).err = some Error.invalidMembership :=
  (C10_configuration_error customConfig
    (cacheFill registeredDb "u2" { Membership := CoffeeLover, QuotaState := mapEmpty })
    "u2" { Membership := CoffeeLover, QuotaState := mapEmpty } Espresso 0 WriteOutcome.ok
    (Or.inl rfl)).1.mpr (by decide)

/-! ## The default configuration and the names -/

/-- C11: after `InitDefaultConfig`, `coffeeQuotaConfig` succeeds for each of the
nine pairs of a tier and a category and returns the documented table: Basic has
1 Espresso, 2 Americano, 3 Cappuccino per 24 hours; Coffee Lover has 5 of each
per 24 hours; Espresso Maniac has 5 Espresso per 60 minutes and Americano and
Cappuccino as Basic.  In whole seconds the windows are 86400 and 3600. -/
theorem C11_default_config_table :
    coffeeQuotaConfig InitDefaultConfig Espresso Basic =
      Except.ok { Type_ := Espresso, Amount := 1, TimeFrame := timeHour * 24 } ∧
    coffeeQuotaConfig InitDefaultConfig Americano Basic =
      Except.ok { Type_ := Americano, Amount := 2, TimeFrame := timeHour * 24 } ∧
    coffeeQuotaConfig InitDefaultConfig Cappuccino Basic =
      Except.ok { Type_ := Cappuccino, Amount := 3, TimeFrame := timeHour * 24 } ∧
    coffeeQuotaConfig InitDefaultConfig Espresso CoffeeLover =
      Except.ok { Type_ := Espresso, Amount := 5, TimeFrame := timeHour * 24 } ∧
    coffeeQuotaConfig InitDefaultConfig Americano CoffeeLover =
      Except.ok { Type_ := Americano, Amount := 5, TimeFrame := timeHour * 24 } ∧
    coffeeQuotaConfig InitDefaultConfig Cappuccino CoffeeLover =
      Except.ok { Type_ := Cappuccino, Amount := 5, TimeFrame := timeHour * 24 } ∧
    coffeeQuotaConfig InitDefaultConfig Espresso EspressoManiac =
      Except.ok { Type_ := Espresso, Amount := 5, TimeFrame := timeHour } ∧
    coffeeQuotaConfig InitDefaultConfig Americano EspressoManiac =
      Except.ok { Type_ := Americano, Amount := 2, TimeFrame := timeHour * 24 } ∧
    coffeeQuotaConfig InitDefaultConfig Cappuccino EspressoManiac =
      Except.ok { Type_ := Cappuccino, Amount := 3, TimeFrame := timeHour * 24 } ∧
    durationSeconds (timeHour * 24) = 24 * 60 * 60 ∧ durationSeconds timeHour = 60 * 60 := by
  refine ⟨rfl, rfl, rfl, rfl, rfl, rfl, rfl, rfl, rfl, by decide, by decide⟩

/-- C20: for every `uint8` value `v`, `MembershipType(v).IsValid()` and
`CoffeeType(v).IsValid()` return nil exactly when `v` is 1, 2 or 3; these are
exactly the values for which `String()` indexes inside its table of three names
(the index is `v - 1` in `uint8` arithmetic, 255 for `v = 0`); and for them
`String()` returns "Basic", "Coffee Lover", "Espresso Maniac" and "Espresso",
"Americano", "Cappuccino". -/
theorem C20_valid_iff_name_index_in_range (v : Nat) (hv : v < 256) :
    (MembershipType.IsValid v = none ↔ v = 1 ∨ v = 2 ∨ v = 3) ∧
    (CoffeeType.IsValid v = none ↔ v = 1 ∨ v = 2 ∨ v = 3) ∧
    (subUint8 v 1 < 3 ↔ v = 1 ∨ v = 2 ∨ v = 3) ∧
    ((MembershipType.String v).isSome ↔ v = 1 ∨ v = 2 ∨ v = 3) ∧
    ((CoffeeType.String v).isSome ↔ v = 1 ∨ v = 2 ∨ v = 3) ∧
    subUint8 0 1 = 255 ∧
    MembershipType.String 1 = some "Basic" ∧
    MembershipType.String 2 = some "Coffee Lover" ∧
    MembershipType.String 3 = some "Espresso Maniac" ∧
    CoffeeType.String 1 = some "Espresso" ∧
    CoffeeType.String 2 = some "Americano" ∧
    CoffeeType.String 3 = some "Cappuccino" := by
  have hidx : subUint8 v 1 < 3 ↔ v = 1 ∨ v = 2 ∨ v = 3 := by
    unfold subUint8; omega
  have hm : (MembershipType.String v).isSome ↔ subUint8 v 1 < 3 := by
    unfold MembershipType.String
    rw [Option.isSome_iff_exists]
    constructor
    · rintro ⟨x, hx⟩
      have := (List.getElem?_eq_some.mp hx).1
      simpa using this
    · intro h
      exact ⟨_, List.getElem?_eq_getElem (by simpa using h)⟩
  have hc : (CoffeeType.String v).isSome ↔ subUint8 v 1 < 3 := by
    unfold CoffeeType.String
    rw [Option.isSome_iff_exists]
    constructor
    · rintro ⟨x, hx⟩
      have := (List.getElem?_eq_some.mp hx).1
      simpa using this
    · intro h
      exact ⟨_, List.getElem?_eq_getElem (by simpa using h)⟩
  refine ⟨?_, ?_, hidx, hm.trans hidx, hc.trans hidx, by decide, by decide, by decide,
    by decide, by decide, by decide, by decide⟩
  · unfold MembershipType.IsValid Basic CoffeeLover EspressoManiac
    split <;> simp_all
  · unfold CoffeeType.IsValid Espresso Americano Cappuccino
    split <;> simp_all

/-- The value 0, which is no tier: invalid, and the name index wraps to 255. -/
theorem C20_witness :
    (MembershipType.IsValid 0 = none ↔ (0 : Nat) = 1 ∨ (0 : Nat) = 2 ∨ (0 : Nat) = 3) ∧
    (CoffeeType.IsValid 0 = none ↔ (0 : Nat) = 1 ∨ (0 : Nat) = 2 ∨ (0 : Nat) = 3) ∧
    (subUint8 0 1 < 3 ↔ (0 : Nat) = 1 ∨ (0 : Nat) = 2 ∨ (0 : Nat) = 3) ∧
    ((MembershipType.String 0).isSome ↔ (0 : Nat) = 1 ∨ (0 : Nat) = 2 ∨ (0 : Nat) = 3) ∧
    ((CoffeeType.String 0).isSome ↔ (0 : Nat) = 1 ∨ (0 : Nat) = 2 ∨ (0 : Nat) = 3) ∧
    subUint8 0 1 = 255 ∧
    MembershipType.String 1 = some "Basic" ∧
    MembershipType.String 2 = some "Coffee Lover" ∧
    MembershipType.String 3 = some "Espresso Maniac" ∧
    CoffeeType.String 1 = some "Espresso" ∧
    CoffeeType.String 2 = some "Americano" ∧
    CoffeeType.String 3 = some "Cappuccino" :=
  C20_valid_iff_name_index_in_range 0 (by decide)

/-! ## Operations of the store -/

theorem RegisterUser_absent {db : CoffeeDb} {userId : String}
    (hf : userFile db userId = none) (membership : MembershipType) (w : WriteOutcome) :
    RegisterUser db userId membership w =
      saveUserData (cacheFill db userId { Membership := membership, QuotaState := mapEmpty })
        userId { Membership := membership, QuotaState := mapEmpty } w := by
  simp [RegisterUser, loadUserDataIfNotExist, readFromStorage, hf, cacheFill]

/-- C12: for a user id absent from the cache and from the files and every tier,
`RegisterUser` with a successful write returns nil, afterwards the cache and
the user file both hold the account with that tier and an empty counter map,
and `GetUserData` returns that account. -/
theorem C12_register_new_user (db : CoffeeDb) (userId : String) (membership : MembershipType)
    (hc : db.users userId = none) (hf : userFile db userId = none) :
    (RegisterUser db userId membership WriteOutcome.ok).2 = none ∧
    (RegisterUser db userId membership WriteOutcome.ok).1 =
      committed db userId { Membership := membership, QuotaState := mapEmpty } ∧
    (RegisterUser db userId membership WriteOutcome.ok).1.users userId =
      some { Membership := membership, QuotaState := mapEmpty } ∧
    userFile (RegisterUser db userId membership WriteOutcome.ok).1 userId =
      some (FileData.record { Membership := membership, QuotaState := mapEmpty }) ∧
    (GetUserData (RegisterUser db userId membership WriteOutcome.ok).1 userId).2 =
      some { Membership := membership, QuotaState := mapEmpty } ∧
    (∀ coffee, cachedCounter (RegisterUser db userId membership WriteOutcome.ok).1
      userId coffee = none) := by
  have _ := hc
  have h : RegisterUser db userId membership WriteOutcome.ok =
      (committed db userId { Membership := membership, QuotaState := mapEmpty }, none) := by
    rw [RegisterUser_absent hf]
    rfl
  rw [h]
  refine ⟨rfl, rfl, committed_users _ _ _, ?_, ?_, ?_⟩
  · exact userFile_committed_same _ _ _
  · show (GetUserData (committed db userId _) userId).2 = _
    rw [GetUserData_cached (committed_users _ _ _)]
  · intro coffee
    simp [cachedCounter, committed, mapSet_same, mapEmpty]

/-- An unknown user is registered as Coffee Lover in the store of the test. -/
theorem C12_witness :
    (RegisterUser registeredDb "u2" CoffeeLover WriteOutcome.ok).2 = none ∧
    (RegisterUser registeredDb "u2" CoffeeLover WriteOutcome.ok).1 =
      committed registeredDb "u2" { Membership := CoffeeLover, QuotaState := mapEmpty } ∧
    (RegisterUser registeredDb "u2" CoffeeLover WriteOutcome.ok).1.users "u2" =
      some { Membership := CoffeeLover, QuotaState := mapEmpty } ∧
    userFile (RegisterUser registeredDb "u2" CoffeeLover WriteOutcome.ok).1 "u2" =
      some (FileData.record { Membership := CoffeeLover, QuotaState := mapEmpty }) ∧
    (GetUserData (RegisterUser registeredDb "u2" CoffeeLover WriteOutcome.ok).1 "u2").2 =
      some { Membership := CoffeeLover, QuotaState := mapEmpty } ∧
    (∀ coffee, cachedCounter (RegisterUser registeredDb "u2" CoffeeLover WriteOutcome.ok).1
      "u2" coffee = none) :=
  C12_register_new_user registeredDb "u2" CoffeeLover rfl rfl

theorem SetQuotaState_of_hasAccount {db : CoffeeDb} {userId : String}
    {a : UserCoffeeMembership} (ha : hasAccount db userId a) (coffee : CoffeeType)
    (qs : UserCoffeeQuota) (w : WriteOutcome) :
    SetQuotaState db userId coffee qs w =
      saveUserData (cacheFill db userId (withCounter a coffee qs)) userId
        (withCounter a coffee qs) w := by
  have h : SetQuotaState db userId coffee qs w =
      SetQuotaState (cacheFill db userId a) userId coffee qs w := by
    rcases ha with h | ⟨h, hf⟩
    · rw [cacheFill_of_cached h]
    · rw [SetQuotaState_cached (cacheFill_users db userId a)]
      simp [SetQuotaState, GetUserData_load h hf, cacheFill, mapSet_same, withCounter,
        mapSet_mapSet]
  rw [h, SetQuotaState_cached (cacheFill_users db userId a)]
  simp [cacheFill, mapSet_mapSet]

/-- C13 (as amended): for a user id absent from the cache and from the files,
`SetQuotaState` returns nil and leaves the store as it is, for every category
and counter; for a user with an account it replaces the counter of the
category in the cached account and, the write succeeding, rewrites the user
file with the full account. -/
theorem C13_set_quota_state (db : CoffeeDb) (userId : String) (coffee : CoffeeType)
    (qs : UserCoffeeQuota) :
    (db.users userId = none → userFile db userId = none → ∀ w,
      SetQuotaState db userId coffee qs w = (db, none)) ∧
    (∀ a, hasAccount db userId a →
      SetQuotaState db userId coffee qs WriteOutcome.ok =
        (committed db userId (withCounter a coffee qs), none) ∧
      cachedCounter (SetQuotaState db userId coffee qs WriteOutcome.ok).1 userId coffee =
        some qs ∧
      userFile (SetQuotaState db userId coffee qs WriteOutcome.ok).1 userId =
        some (FileData.record (withCounter a coffee qs)) ∧
      (∀ other, other ≠ coffee →
        cachedCounter (SetQuotaState db userId coffee qs WriteOutcome.ok).1 userId other =
          a.QuotaState other)) := by
  constructor
  · intro hc hf w
    simp [SetQuotaState, GetUserData_absent hc hf]
  · intro a ha
    have h : SetQuotaState db userId coffee qs WriteOutcome.ok =
        (committed db userId (withCounter a coffee qs), none) := by
      rw [SetQuotaState_of_hasAccount ha]
      rfl
    rw [h]
    refine ⟨rfl, ?_, ?_, ?_⟩
    · simp [cachedCounter, committed, mapSet_same, withCounter]
    · exact userFile_committed_same _ _ _
    · intro other ho
      simp [cachedCounter, committed, mapSet_same, withCounter, mapSet_other, ho]

/-- C13 fails as stated: for the unknown user "u2" `SetQuotaState` returns nil,
not an error. -/
theorem C13_counterexample :
    registeredDb.users "u2" = none ∧ userFile registeredDb "u2" = none ∧
    (SetQuotaState registeredDb "u2" Espresso { AmountBought := 1, StartBoughtTime := 0 }
      WriteOutcome.ok).2 = none := by
  refine ⟨rfl, rfl, by decide⟩

/-- The unknown user "u2" and the registered user "u1". -/
theorem C13_witness :
    (∀ w, SetQuotaState registeredDb "u2" Espresso { AmountBought := 1, StartBoughtTime := 0 } w
      = (registeredDb, none)) ∧
    SetQuotaState registeredDb "u1" Espresso { AmountBought := 1, StartBoughtTime := 0 }
      WriteOutcome.ok =
      (committed registeredDb "u1"
        (withCounter { Membership := Basic, QuotaState := mapEmpty } Espresso
          { AmountBought := 1, StartBoughtTime := 0 }), none) :=
  ⟨(C13_set_quota_state registeredDb "u2" Espresso
      { AmountBought := 1, StartBoughtTime := 0 }).1 rfl rfl,
   ((C13_set_quota_state registeredDb "u1" Espresso
      { AmountBought := 1, StartBoughtTime := 0 }).2
      { Membership := Basic, QuotaState := mapEmpty } (Or.inl rfl)).1⟩

/-- C14 (as amended): for a user id that is not in the cache and whose file
fails to decode, `GetUserData` returns nil, as for an unknown user, and
`buyCoffee` returns the user-not-found error; neither changes the store. -/
theorem C14_malformed_record_reads_as_absent (coffeeConfig : CoffeeConfig) (db : CoffeeDb)
    (userId : String) (coffee : CoffeeType) (now : Int) (w : WriteOutcome)
    (hc : db.users userId = none) (hf : userFile db userId = some FileData.malformed) :
    GetUserData db userId = (db, none) ∧
    (buyCoffee coffeeConfig db userId coffee now w).err = some (Error.userNotFound userId) ∧
    (buyCoffee coffeeConfig db userId coffee now w).limit = none ∧
    (buyCoffee coffeeConfig db userId coffee now w).db = db := by
  refine ⟨GetUserData_malformed hc hf, ?_⟩
  simp [buyCoffee, GetUserData_malformed hc hf]

/-- C14 fails as stated: with the undecodable file of "u9", `buyCoffee`
reports user-not-found, `GetUserData` returns nil, and `RegisterUser` returns
nil (success) and `apiRegisterUser` status 200 although nothing is
registered. -/
theorem C14_counterexample :
    corruptDb.users "u9" = none ∧
    (buyCoffee customConfig corruptDb "u9" Espresso 0 WriteOutcome.ok).err =
      some (Error.userNotFound "u9") ∧
    (GetUserData corruptDb "u9").2.isNone = true ∧
    (RegisterUser corruptDb "u9" Basic WriteOutcome.ok).2 = none ∧
    (apiRegisterUser corruptDb { UserId := "u9", Membership := Basic } WriteOutcome.ok).2 =
      ApiResponse.statusOK ∧
    (RegisterUser corruptDb "u9" Basic WriteOutcome.ok).1.users "u9" = none := by
  refine ⟨rfl, by decide, by decide, by decide, by decide, rfl⟩

/-- The undecodable file of "u9". -/
theorem C14_witness :
    GetUserData corruptDb "u9" = (corruptDb, none) ∧
    (buyCoffee customConfig corruptDb "u9" Espresso 0 WriteOutcome.ok).err =
      some (Error.userNotFound "u9") ∧
    (buyCoffee customConfig corruptDb "u9" Espresso 0 WriteOutcome.ok).limit = none ∧
    (buyCoffee customConfig corruptDb "u9" Espresso 0 WriteOutcome.ok).db = corruptDb :=
  C14_malformed_record_reads_as_absent customConfig corruptDb "u9" Espresso 0 WriteOutcome.ok
    rfl rfl

/-- C15: if the user id is in the cache, `GetUserData` returns the cached
account whatever the files hold and leaves the store as it is; if it is not in
the cache and its file decodes to `a`, it returns `a`, the cache holds `a`
afterwards and no file changes; if it is in neither, it returns nil and the
store is as it was. -/
theorem C15_get_user_data (db : CoffeeDb) (userId : String) :
    (∀ a, db.users userId = some a →
      GetUserData db userId = (db, some a) ∧
      ∀ files fileId,
        (GetUserData { users := db.users, files := files, fileId := fileId } userId).2 =
          some a) ∧
    (∀ a, db.users userId = none → userFile db userId = some (FileData.record a) →
      (GetUserData db userId).2 = some a ∧
      (GetUserData db userId).1.users userId = some a ∧
      (GetUserData db userId).1.files = db.files ∧
      ∀ other, other ≠ userId → (GetUserData db userId).1.users other = db.users other) ∧
    (db.users userId = none → userFile db userId = none → GetUserData db userId = (db, none)) := by
  refine ⟨?_, ?_, ?_⟩
  · intro a h
    refine ⟨GetUserData_cached h, ?_⟩
    intro files fileId
    have h2 : ({ users := db.users, files := files, fileId := fileId } : CoffeeDb).users userId
        = some a := h
    rw [GetUserData_cached h2]
  · intro a h hf
    rw [GetUserData_load h hf]
    refine ⟨rfl, cacheFill_users _ _ _, rfl, ?_⟩
    intro other ho
    simp [cacheFill, mapSet_other, ho]
  · intro h hf
    exact GetUserData_absent h hf

/-- The cached user "u1", and the unknown user "u2". -/
theorem C15_witness :
    GetUserData registeredDb "u1" =
      (registeredDb, some { Membership := Basic, QuotaState := mapEmpty }) ∧
    GetUserData registeredDb "u2" = (registeredDb, none) :=
  ⟨((C15_get_user_data registeredDb "u1").1 { Membership := Basic, QuotaState := mapEmpty }
      rfl).1,
   (C15_get_user_data registeredDb "u2").2.2 rfl rfl⟩

/-! ## Shape of the store after `buyCoffee` -/

theorem hasAccount_unique {db : CoffeeDb} {userId : String} {a b : UserCoffeeMembership}
    (ha : hasAccount db userId a) (hb : hasAccount db userId b) : a = b := by
  rcases ha with h | ⟨h, hf⟩ <;> rcases hb with g | ⟨g, gf⟩
  · rw [h] at g; exact Option.some.inj g
  · rw [h] at g; cases g
  · rw [h] at g; cases g
  · rw [hf] at gf
    injection gf with gf
    injection gf

theorem GetUserData_cases (db : CoffeeDb) (userId : String) :
    ((∀ a, ¬ hasAccount db userId a) ∧ GetUserData db userId = (db, none)) ∨
      ∃ a, hasAccount db userId a ∧ GetUserData db userId = (cacheFill db userId a, some a) := by
  cases hu : db.users userId with
  | some a => exact Or.inr ⟨a, Or.inl hu, GetUserData_of_hasAccount (Or.inl hu)⟩
  | none =>
    cases hf : userFile db userId with
    | none =>
      refine Or.inl ⟨?_, GetUserData_absent hu hf⟩
      rintro a (h | ⟨_, h⟩)
      · rw [hu] at h; cases h
      · rw [hf] at h; cases h
    | some d =>
      cases d with
      | malformed =>
        refine Or.inl ⟨?_, GetUserData_malformed hu hf⟩
        rintro a (h | ⟨_, h⟩)
        · rw [hu] at h; cases h
        · rw [hf] at h; cases h
      | record a =>
        exact Or.inr ⟨a, Or.inr ⟨hu, hf⟩, GetUserData_of_hasAccount (Or.inr ⟨hu, hf⟩)⟩

theorem cacheFill_cacheFill (db : CoffeeDb) (userId : String) (a b : UserCoffeeMembership) :
    cacheFill (cacheFill db userId a) userId b = cacheFill db userId b := by
  simp [cacheFill, mapSet_mapSet]

theorem SetQuotaState_cacheFill (db : CoffeeDb) (userId : String) (a : UserCoffeeMembership)
    (coffee : CoffeeType) (qs : UserCoffeeQuota) (w : WriteOutcome) :
    SetQuotaState (cacheFill db userId a) userId coffee qs w =
      saveUserData (cacheFill db userId (withCounter a coffee qs)) userId
        (withCounter a coffee qs) w := by
  rw [SetQuotaState_cached (cacheFill_users db userId a), cacheFill_cacheFill]

/-- The counter a call of `buyCoffee` writes for an account: the first of a
window, or one more than the counter it found below the allowance. -/
theorem buyCoffee_shape (coffeeConfig : CoffeeConfig) (db : CoffeeDb) (userId : String)
    (coffee : CoffeeType) (now : Int) (w : WriteOutcome) :
    ((∀ a, ¬ hasAccount db userId a) ∧
        (buyCoffee coffeeConfig db userId coffee now w).db = db) ∨
      ∃ a, hasAccount db userId a ∧
        ((buyCoffee coffeeConfig db userId coffee now w).db = cacheFill db userId a ∨
          ∃ q, (q = { AmountBought := 1, StartBoughtTime := now } ∨
              ∃ pol n s, coffeeQuotaConfig coffeeConfig coffee a.Membership = Except.ok pol ∧
                a.QuotaState coffee = some { AmountBought := n, StartBoughtTime := s } ∧
                n < pol.Amount ∧
                q = { AmountBought := wrapUint32 (n + 1), StartBoughtTime := s }) ∧
            (buyCoffee coffeeConfig db userId coffee now w).db =
              (saveUserData (cacheFill db userId (withCounter a coffee q)) userId
                (withCounter a coffee q) w).1) := by
  rcases GetUserData_cases db userId with ⟨hno, hg⟩ | ⟨a, ha, _⟩
  · left
    refine ⟨hno, ?_⟩
    simp [buyCoffee, hg]
  · right
    refine ⟨a, ha, ?_⟩
    cases hcfg : coffeeQuotaConfig coffeeConfig coffee a.Membership with
    | error e =>
      left
      rw [buyCoffee_of_config_error ha hcfg]
    | ok pol =>
      rw [buyCoffee_of_policy ha hcfg]
      cases hq : a.QuotaState coffee with
      | none =>
        right
        exact ⟨_, Or.inl rfl, by simp only [SetQuotaState_cacheFill]⟩
      | some q0 =>
        simp only
        by_cases h1 : wrapInt64 (now - q0.StartBoughtTime) < durationSeconds pol.TimeFrame
        · by_cases h2 : pol.Amount ≤ q0.AmountBought
          · left
            simp only [h1, h2, if_true]
          · right
            refine ⟨_, Or.inr ⟨pol, q0.AmountBought, q0.StartBoughtTime, rfl, rfl,
              by omega, rfl⟩, ?_⟩
            simp only [h1, h2, if_true, if_false, SetQuotaState_cacheFill]
        · right
          refine ⟨_, Or.inl rfl, ?_⟩
          simp only [h1, if_false, SetQuotaState_cacheFill]

theorem saveUserData_users (db : CoffeeDb) (userId : String) (a : UserCoffeeMembership)
    (w : WriteOutcome) : (saveUserData db userId a w).1.users = db.users := by
  cases w <;> rfl

theorem saveUserData_fileId (db : CoffeeDb) (userId : String) (a : UserCoffeeMembership)
    (w : WriteOutcome) : (saveUserData db userId a w).1.fileId = db.fileId := by
  cases w <;> rfl

theorem saveUserData_files_other (db : CoffeeDb) (userId : String) (a : UserCoffeeMembership)
    (w : WriteOutcome) {file : String} (h : file ≠ storagePath db userId) :
    (saveUserData db userId a w).1.files file = db.files file := by
  cases w <;> simp [saveUserData, persistOnStorage, mapSet_other, h]

theorem saveUserData_files_same (db : CoffeeDb) (userId : String) (a : UserCoffeeMembership)
    (w : WriteOutcome) :
    (saveUserData db userId a w).1.files (storagePath db userId) =
        db.files (storagePath db userId) ∨
      (saveUserData db userId a w).1.files (storagePath db userId) =
        some (FileData.record a) ∨
      (w = WriteOutcome.failedTruncated ∧
        (saveUserData db userId a w).1.files (storagePath db userId) =
          some FileData.malformed) := by
  cases w
  · right; left; simp [saveUserData, persistOnStorage, mapSet_same]
  · left; rfl
  · right; right; simp [saveUserData, persistOnStorage, mapSet_same]

theorem buyCoffee_fileId (coffeeConfig : CoffeeConfig) (db : CoffeeDb) (userId : String)
    (coffee : CoffeeType) (now : Int) (w : WriteOutcome) :
    (buyCoffee coffeeConfig db userId coffee now w).db.fileId = db.fileId := by
  rcases buyCoffee_shape coffeeConfig db userId coffee now w with
    ⟨_, hdb⟩ | ⟨a, _, hdb | ⟨q, _, hdb⟩⟩
  · rw [hdb]
  · rw [hdb]; rfl
  · rw [hdb, saveUserData_fileId]; rfl

/-- What `buyCoffee` returned LimitExceeded from. -/
theorem buyCoffee_limit_inv {coffeeConfig : CoffeeConfig} {db : CoffeeDb} {userId : String}
    {coffee : CoffeeType} {now : Int} {w : WriteOutcome} {l : CoffeeLimitExceed}
    (hl : (buyCoffee coffeeConfig db userId coffee now w).limit = some l) :
    ∃ a pol q, hasAccount db userId a ∧
      coffeeQuotaConfig coffeeConfig coffee a.Membership = Except.ok pol ∧
      a.QuotaState coffee = some q ∧
      wrapInt64 (now - q.StartBoughtTime) < durationSeconds pol.TimeFrame ∧
      pol.Amount ≤ q.AmountBought ∧
      l = { Type_ := coffee, AmountBought := q.AmountBought,
            AvailableIn := wrapInt64 (durationSeconds pol.TimeFrame -
              wrapInt64 (now - q.StartBoughtTime)) } := by
  rcases GetUserData_cases db userId with ⟨_, hg⟩ | ⟨a, ha, _⟩
  · simp [buyCoffee, hg] at hl
  · cases hcfg : coffeeQuotaConfig coffeeConfig coffee a.Membership with
    | error e =>
      rw [buyCoffee_of_config_error ha hcfg] at hl
      cases hl
    | ok pol =>
      rw [buyCoffee_of_policy ha hcfg] at hl
      cases hq : a.QuotaState coffee with
      | none => rw [hq] at hl; cases hl
      | some q0 =>
        rw [hq] at hl
        simp only at hl
        by_cases h1 : wrapInt64 (now - q0.StartBoughtTime) < durationSeconds pol.TimeFrame
        · by_cases h2 : pol.Amount ≤ q0.AmountBought
          · simp only [h1, h2, if_true, Option.some.injEq] at hl
            exact ⟨a, pol, q0, ha, hcfg, hq, h1, h2, hl.symm⟩
          · simp only [h1, h2, if_true, if_false] at hl
            cases hl
        · simp only [h1, if_false] at hl
          cases hl

/-! ## Bounds of the limit value -/

theorem durationSeconds_abs_le {timeFrame : Int} (h : isInt64 timeFrame) :
    -(2 ^ 34) ≤ durationSeconds timeFrame ∧ durationSeconds timeFrame ≤ 2 ^ 34 := by
  have h1 := h
  unfold isInt64 at h1
  constructor
  · exact le_durationSeconds_of_le h (by norm_num at h1 ⊢; omega)
  · exact durationSeconds_le_of_le h (by norm_num at h1 ⊢; omega)

/-- C19: whenever `buyCoffee` returns LimitExceeded it does so from a counter
inside its window, and, the clock reading and the window start being within
`2 ^ 61` seconds of the epoch, `AvailableIn` is strictly positive; if moreover
the clock reading is not earlier than the window start, `AvailableIn` is at
most the window in whole seconds. -/
theorem C19_available_in_bounds (coffeeConfig : CoffeeConfig) (db : CoffeeDb)
    (userId : String) (coffee : CoffeeType) (now : Int) (w : WriteOutcome)
    (l : CoffeeLimitExceed)
    (hl : (buyCoffee coffeeConfig db userId coffee now w).limit = some l)
    (hnow : clockReading now) :
    ∃ a pol q, hasAccount db userId a ∧
      coffeeQuotaConfig coffeeConfig coffee a.Membership = Except.ok pol ∧
      a.QuotaState coffee = some q ∧
      l.Type_ = coffee ∧ l.AmountBought = q.AmountBought ∧
      (isInt64 pol.TimeFrame → clockReading q.StartBoughtTime →
        l.AvailableIn = durationSeconds pol.TimeFrame - (now - q.StartBoughtTime) ∧
        0 < l.AvailableIn ∧
        (q.StartBoughtTime ≤ now → l.AvailableIn ≤ durationSeconds pol.TimeFrame)) := by
  obtain ⟨a, pol, q, ha, hcfg, hq, hact, _, hleq⟩ := buyCoffee_limit_inv hl
  refine ⟨a, pol, q, ha, hcfg, hq, by rw [hleq], by rw [hleq], ?_⟩
  intro htf hs
  have hdur := durationSeconds_abs_le htf
  unfold clockReading at hnow hs
  have hd : isInt64 (now - q.StartBoughtTime) := by
    unfold isInt64; norm_num at hnow hs ⊢; omega
  rw [wrapInt64_of_isInt64 hd] at hact hleq
  have hav : isInt64 (durationSeconds pol.TimeFrame - (now - q.StartBoughtTime)) := by
    unfold isInt64; norm_num at hnow hs hdur ⊢; omega
  rw [wrapInt64_of_isInt64 hav] at hleq
  rw [hleq]
  refine ⟨rfl, ?_, ?_⟩
  · show 0 < durationSeconds pol.TimeFrame - (now - q.StartBoughtTime)
    omega
  · intro hle
    show durationSeconds pol.TimeFrame - (now - q.StartBoughtTime) ≤ _
    omega

/-- The scenario of the specification: bought at second 0, asked at second 5,
window 10 seconds. -/
theorem C19_witness :
    ∃ a pol q, hasAccount (espressoDb 1 0) "u1" a ∧
      coffeeQuotaConfig customConfig Espresso a.Membership = Except.ok pol ∧
      a.QuotaState Espresso = some q ∧
      ({ Type_ := Espresso, AmountBought := 1, AvailableIn := 5 } : CoffeeLimitExceed).Type_
        = Espresso ∧
      ({ Type_ := Espresso, AmountBought := 1, AvailableIn := 5 } : CoffeeLimitExceed).AmountBought
        = q.AmountBought ∧
      (isInt64 pol.TimeFrame → clockReading q.StartBoughtTime →
        ({ Type_ := Espresso, AmountBought := 1, AvailableIn := 5 } :
            CoffeeLimitExceed).AvailableIn =
          durationSeconds pol.TimeFrame - (5 - q.StartBoughtTime) ∧
        0 < ({ Type_ := Espresso, AmountBought := 1, AvailableIn := 5 } :
            CoffeeLimitExceed).AvailableIn ∧
        (q.StartBoughtTime ≤ 5 →
          ({ Type_ := Espresso, AmountBought := 1, AvailableIn := 5 } :
            CoffeeLimitExceed).AvailableIn ≤ durationSeconds pol.TimeFrame)) :=
  C19_available_in_bounds customConfig (espressoDb 1 0) "u1" Espresso 5 WriteOutcome.ok
    { Type_ := Espresso, AmountBought := 1, AvailableIn := 5 } (by decide) (by decide)

/-! ## Frame of `buyCoffee` -/

/-- C18 (as amended): `buyCoffee` for user `u` and category `c` changes no
file other than the file of `u` and no cache entry other than that of `u`; a
user with an account has, after the call, a cached account with the same tier
and the same counter in every other category, and the file of `u` is as
before, or holds that cached account, or (only after a write that failed
midway) is undecodable; for a user without an account the store is
unchanged. -/
theorem C18_buyCoffee_frame (coffeeConfig : CoffeeConfig) (db : CoffeeDb) (userId : String)
    (coffee : CoffeeType) (now : Int) (w : WriteOutcome) :
    (buyCoffee coffeeConfig db userId coffee now w).db.fileId = db.fileId ∧
    (∀ file, file ≠ storagePath db userId →
      (buyCoffee coffeeConfig db userId coffee now w).db.files file = db.files file) ∧
    (∀ other, other ≠ userId →
      (buyCoffee coffeeConfig db userId coffee now w).db.users other = db.users other ∧
      (storagePath db other ≠ storagePath db userId →
        userFile (buyCoffee coffeeConfig db userId coffee now w).db other =
          userFile db other)) ∧
    (∀ a, hasAccount db userId a →
      ∃ a1, (buyCoffee coffeeConfig db userId coffee now w).db.users userId = some a1 ∧
        a1.Membership = a.Membership ∧
        (∀ other, other ≠ coffee → a1.QuotaState other = a.QuotaState other) ∧
        (userFile (buyCoffee coffeeConfig db userId coffee now w).db userId =
            userFile db userId ∨
          userFile (buyCoffee coffeeConfig db userId coffee now w).db userId =
            some (FileData.record a1) ∨
          (w = WriteOutcome.failedTruncated ∧
            userFile (buyCoffee coffeeConfig db userId coffee now w).db userId =
              some FileData.malformed))) ∧
    ((∀ a, ¬ hasAccount db userId a) →
      (buyCoffee coffeeConfig db userId coffee now w).db = db) := by
  have hfid := buyCoffee_fileId coffeeConfig db userId coffee now w
  have hfiles : ∀ file, file ≠ storagePath db userId →
      (buyCoffee coffeeConfig db userId coffee now w).db.files file = db.files file := by
    intro file hfile
    rcases buyCoffee_shape coffeeConfig db userId coffee now w with
      ⟨_, hdb⟩ | ⟨a, _, hdb | ⟨q, _, hdb⟩⟩
    · rw [hdb]
    · rw [hdb]; rfl
    · rw [hdb, saveUserData_files_other (cacheFill db userId (withCounter a coffee q)) userId
        (withCounter a coffee q) w
        (show file ≠ storagePath (cacheFill db userId (withCounter a coffee q)) userId
          from hfile)]
      rfl
  have hpath : ∀ other,
      storagePath (buyCoffee coffeeConfig db userId coffee now w).db other =
        storagePath db other := by
    intro other
    unfold storagePath
    rw [hfid]
  refine ⟨hfid, hfiles, ?_, ?_, ?_⟩
  · intro other ho
    refine ⟨?_, ?_⟩
    · rcases buyCoffee_shape coffeeConfig db userId coffee now w with
        ⟨_, hdb⟩ | ⟨a, _, hdb | ⟨q, _, hdb⟩⟩
      · rw [hdb]
      · rw [hdb]; simp [cacheFill, mapSet_other, ho]
      · rw [hdb, saveUserData_users]; simp [cacheFill, mapSet_other, ho]
    · intro hp
      unfold userFile
      rw [hpath, hfiles _ hp]
  · intro b hb
    rcases buyCoffee_shape coffeeConfig db userId coffee now w with
      ⟨hno, _⟩ | ⟨a, ha, hdb | ⟨q, _, hdb⟩⟩
    · exact absurd hb (hno b)
    · have hab : a = b := hasAccount_unique ha hb
      subst hab
      refine ⟨a, ?_, rfl, fun _ _ => rfl, Or.inl ?_⟩
      · rw [hdb]; exact cacheFill_users _ _ _
      · rw [hdb]; rfl
    · have hab : a = b := hasAccount_unique ha hb
      subst hab
      refine ⟨withCounter a coffee q, ?_, rfl, ?_, ?_⟩
      · rw [hdb, saveUserData_users]; exact cacheFill_users _ _ _
      · intro other ho
        simp [withCounter, mapSet_other, ho]
      · have hs := saveUserData_files_same (cacheFill db userId (withCounter a coffee q))
          userId (withCounter a coffee q) w
        have hu : ∀ d, userFile d userId = d.files (storagePath d userId) := fun _ => rfl
        rw [hu, hu, hpath, hdb]
        exact hs
  · intro hno
    rcases buyCoffee_shape coffeeConfig db userId coffee now w with
      ⟨_, hdb⟩ | ⟨a, ha, _⟩
    · exact hdb
    · exact absurd ha (hno a)

/-- C18 fails as stated.  In a data directory where `./a` names the file of
`a`, the Americano bought under the id "./a" puts a counter into the record of
the other user "a".  And when the write of the Espresso of "u1" fails midway,
the record of "u1" no longer gives a tier. -/
theorem C18_counterexample :
    "a" ≠ "./a" ∧
    storedCounter aliasDb "a" Americano = none ∧
    (buyCoffee customConfig aliasDb "./a" Americano 0 WriteOutcome.ok).err = none ∧
    storedCounter (buyCoffee customConfig aliasDb "./a" Americano 0 WriteOutcome.ok).db
      "a" Americano = some { AmountBought := 1, StartBoughtTime := 0 } ∧
    storedTier registeredDb "u1" = some Basic ∧
    storedTier (buyCoffee customConfig registeredDb "u1" Espresso 0
      WriteOutcome.failedTruncated).db "u1" = none := by
  refine ⟨by decide, by decide, by decide, by decide, by decide, by decide⟩

/-- The Espresso of "u1" leaves the tier of "u1" and its other counters alone. -/
theorem C18_witness :
    ∃ a1, (buyCoffee customConfig registeredDb "u1" Espresso 0 WriteOutcome.ok).db.users "u1" =
        some a1 ∧
      a1.Membership = Basic ∧
      (∀ other, other ≠ Espresso → a1.QuotaState other = (mapEmpty : CoffeeType → _) other) ∧
      (userFile (buyCoffee customConfig registeredDb "u1" Espresso 0 WriteOutcome.ok).db "u1" =
          userFile registeredDb "u1" ∨
        userFile (buyCoffee customConfig registeredDb "u1" Espresso 0 WriteOutcome.ok).db "u1" =
          some (FileData.record a1) ∨
        (WriteOutcome.ok = WriteOutcome.failedTruncated ∧
          userFile (buyCoffee customConfig registeredDb "u1" Espresso 0 WriteOutcome.ok).db
            "u1" = some FileData.malformed)) :=
  (C18_buyCoffee_frame customConfig registeredDb "u1" Espresso 0 WriteOutcome.ok).2.2.2.1
    { Membership := Basic, QuotaState := mapEmpty } (Or.inl rfl)

/-! ## The cache and the files -/

theorem saveUserData_cacheFill_ok (db : CoffeeDb) (userId : String)
    (a : UserCoffeeMembership) :
    saveUserData (cacheFill db userId a) userId a WriteOutcome.ok =
      (committed db userId a, none) := rfl

theorem userFile_of_fileId {fileId : String → String} {db : CoffeeDb}
    (h : db.fileId = fileId) (userId : String) :
    userFile db userId = db.files (fileId (fullUserFileName userId)) := by
  unfold userFile storagePath
  rw [h]

theorem cacheMirroredOn_cacheFill {fileId : String → String} {ids : List String}
    {db : CoffeeDb} (h : cacheMirroredOn fileId ids db) {userId : String}
    {a : UserCoffeeMembership} (hid : userId ∈ ids)
    (hf : userFile db userId = some (FileData.record a)) :
    cacheMirroredOn fileId ids (cacheFill db userId a) := by
  refine ⟨h.1, ?_⟩
  intro v b hv
  by_cases hvu : v = userId
  · subst hvu
    rw [cacheFill_users] at hv
    cases hv
    rw [userFile_of_fileId h.1] at hf
    exact ⟨hid, hf⟩
  · simp only [cacheFill, mapSet_other _ _ hvu] at hv ⊢
    exact h.2 v b hv

theorem cacheMirroredOn_committed {fileId : String → String} {ids : List String}
    {db : CoffeeDb} (h : cacheMirroredOn fileId ids db) {userId : String}
    (a : UserCoffeeMembership) (hid : userId ∈ ids)
    (hinj : ∀ x ∈ ids, ∀ y ∈ ids,
      fileId (fullUserFileName x) = fileId (fullUserFileName y) → x = y) :
    cacheMirroredOn fileId ids (committed db userId a) := by
  have hpath : storagePath db userId = fileId (fullUserFileName userId) := by
    unfold storagePath; rw [h.1]
  refine ⟨h.1, ?_⟩
  intro v b hv
  by_cases hvu : v = userId
  · subst hvu
    rw [committed_users] at hv
    cases hv
    refine ⟨hid, ?_⟩
    simp [committed, hpath, mapSet_same]
  · simp only [committed, mapSet_other _ _ hvu] at hv
    obtain ⟨hvid, hvf⟩ := h.2 v b hv
    refine ⟨hvid, ?_⟩
    have hne : fileId (fullUserFileName v) ≠ fileId (fullUserFileName userId) :=
      fun heq => hvu (hinj v hvid userId hid heq)
    simp only [committed, hpath, mapSet_other _ _ hne]
    exact hvf

theorem file_of_hasAccount {fileId : String → String} {ids : List String} {db : CoffeeDb}
    (h : cacheMirroredOn fileId ids db) {userId : String} {a : UserCoffeeMembership}
    (ha : hasAccount db userId a) : userFile db userId = some (FileData.record a) := by
  rcases ha with hu | ⟨_, hf⟩
  · rw [userFile_of_fileId h.1]
    exact (h.2 userId a hu).2
  · exact hf

theorem cacheMirroredOn_applyOp {fileId : String → String} {ids : List String}
    (hinj : ∀ x ∈ ids, ∀ y ∈ ids,
      fileId (fullUserFileName x) = fileId (fullUserFileName y) → x = y)
    (coffeeConfig : CoffeeConfig) {db : CoffeeDb} (h : cacheMirroredOn fileId ids db)
    (op : StoreOp) (hop : ∀ x ∈ opUsers [op], x ∈ ids) :
    cacheMirroredOn fileId ids (applyOp coffeeConfig db op) := by
  cases op with
  | registerUser userId membership =>
    have hid : userId ∈ ids := hop userId (by simp [opUsers])
    show cacheMirroredOn fileId ids (RegisterUser db userId membership WriteOutcome.ok).1
    cases hf : userFile db userId with
    | none =>
      rw [RegisterUser_absent hf, saveUserData_cacheFill_ok]
      exact cacheMirroredOn_committed h _ hid hinj
    | some d =>
      cases d with
      | malformed =>
        have : RegisterUser db userId membership WriteOutcome.ok = (db, none) := by
          simp [RegisterUser, loadUserDataIfNotExist, readFromStorage, hf]
        rw [this]; exact h
      | record a =>
        have : RegisterUser db userId membership WriteOutcome.ok =
            (cacheFill db userId a, none) := by
          simp [RegisterUser, loadUserDataIfNotExist, readFromStorage, hf, cacheFill]
        rw [this]; exact cacheMirroredOn_cacheFill h hid hf
  | getUserData userId =>
    have hid : userId ∈ ids := hop userId (by simp [opUsers])
    show cacheMirroredOn fileId ids (GetUserData db userId).1
    rcases GetUserData_cases db userId with ⟨_, hg⟩ | ⟨a, ha, hg⟩
    · rw [hg]; exact h
    · rw [hg]; exact cacheMirroredOn_cacheFill h hid (file_of_hasAccount h ha)
  | setQuotaState userId coffee qs =>
    have hid : userId ∈ ids := hop userId (by simp [opUsers])
    show cacheMirroredOn fileId ids (SetQuotaState db userId coffee qs WriteOutcome.ok).1
    rcases GetUserData_cases db userId with ⟨_, hg⟩ | ⟨a, ha, _⟩
    · have : SetQuotaState db userId coffee qs WriteOutcome.ok = (db, none) := by
        simp [SetQuotaState, hg]
      rw [this]; exact h
    · rw [SetQuotaState_of_hasAccount ha, saveUserData_cacheFill_ok]
      exact cacheMirroredOn_committed h _ hid hinj
  | buyCoffee userId coffee now =>
    have hid : userId ∈ ids := hop userId (by simp [opUsers])
    show cacheMirroredOn fileId ids
      (buyCoffee coffeeConfig db userId coffee now WriteOutcome.ok).db
    rcases buyCoffee_shape coffeeConfig db userId coffee now WriteOutcome.ok with
      ⟨_, hdb⟩ | ⟨a, ha, hdb | ⟨q, _, hdb⟩⟩
    · rw [hdb]; exact h
    · rw [hdb]; exact cacheMirroredOn_cacheFill h hid (file_of_hasAccount h ha)
    · rw [hdb, saveUserData_cacheFill_ok]
      exact cacheMirroredOn_committed h _ hid hinj
  | clearDb =>
    refine ⟨h.1, ?_⟩
    intro v b hv
    simp [applyOp, ClearDb, mapEmpty] at hv

theorem opUsers_cons (op : StoreOp) (ops : List StoreOp) :
    opUsers (op :: ops) = opUsers [op] ++ opUsers ops := by
  cases op <;> simp [opUsers]

theorem cacheMirroredOn_runOps {fileId : String → String} {ids : List String}
    (hinj : ∀ x ∈ ids, ∀ y ∈ ids,
      fileId (fullUserFileName x) = fileId (fullUserFileName y) → x = y)
    (coffeeConfig : CoffeeConfig) (ops : List StoreOp) :
    ∀ db : CoffeeDb, (∀ x ∈ opUsers ops, x ∈ ids) → cacheMirroredOn fileId ids db →
      cacheMirroredOn fileId ids (runOps coffeeConfig db ops) := by
  induction ops with
  | nil => intro db _ h; exact h
  | cons op ops ih =>
    intro db hops h
    rw [opUsers_cons] at hops
    have hstep := cacheMirroredOn_applyOp hinj coffeeConfig h op
      (fun x hx => hops x (List.mem_append_left _ hx))
    exact ih _ (fun x hx => hops x (List.mem_append_right _ hx)) hstep

/-- C16 (as amended): in every store reached from the empty store by a
sequence of `RegisterUser`, `GetUserData`, `SetQuotaState`, `buyCoffee` and
`ClearDb` calls whose file writes succeed and whose user ids name pairwise
different files, each cached account is the account the file of that user
decodes to. -/
theorem C16_cache_mirrors_files (coffeeConfig : CoffeeConfig) (fileId : String → String)
    (ops : List StoreOp) (userId : String) (a : UserCoffeeMembership)
    (hinj : ∀ x ∈ opUsers ops, ∀ y ∈ opUsers ops,
      fileId (fullUserFileName x) = fileId (fullUserFileName y) → x = y)
    (h : (runOps coffeeConfig (emptyDb fileId) ops).users userId = some a) :
    userFile (runOps coffeeConfig (emptyDb fileId) ops) userId = some (FileData.record a) := by
  have hempty : cacheMirroredOn fileId (opUsers ops) (emptyDb fileId) := by
    refine ⟨rfl, ?_⟩
    intro v b hv
    simp [emptyDb, Init, mapEmpty] at hv
  have hfin := cacheMirroredOn_runOps hinj coffeeConfig ops (emptyDb fileId)
    (fun _ hx => hx) hempty
  rw [userFile_of_fileId hfin.1]
  exact (hfin.2 userId a h).2

/-- C16 fails as stated.  In a data directory where `./a` names the file of
`a`, user "a" is registered and an Americano is bought under the id "./a":
both writes succeed, the cached account of "a" has no Americano counter, and
the file of "a" has the counter `(1, 0)`. -/
theorem C16_counterexample :
    cachedCounter (runOps customConfig (emptyDb dotSlashNames)
      [StoreOp.registerUser "a" Basic, StoreOp.buyCoffee "./a" Americano 0]) "a" Americano
      = none ∧
    ((runOps customConfig (emptyDb dotSlashNames)
      [StoreOp.registerUser "a" Basic, StoreOp.buyCoffee "./a" Americano 0]).users
      "a").isSome = true ∧
    storedCounter (runOps customConfig (emptyDb dotSlashNames)
      [StoreOp.registerUser "a" Basic, StoreOp.buyCoffee "./a" Americano 0]) "a" Americano
      = some { AmountBought := 1, StartBoughtTime := 0 } ∧
    ¬ cacheMirrored (runOps customConfig (emptyDb dotSlashNames)
      [StoreOp.registerUser "a" Basic, StoreOp.buyCoffee "./a" Americano 0]) := by
  refine ⟨by decide, by decide, by decide, ?_⟩
  intro hm
  have hfile := hm "a" { Membership := Basic, QuotaState := mapEmpty } rfl
  have hstored : storedCounter (runOps customConfig (emptyDb dotSlashNames)
      [StoreOp.registerUser "a" Basic, StoreOp.buyCoffee "./a" Americano 0]) "a" Americano
      = some { AmountBought := 1, StartBoughtTime := 0 } := by decide
  unfold storedCounter at hstored
  rw [hfile] at hstored
  simp [mapEmpty] at hstored

/-- A registration, two buys, a read and a second registration, each file
name naming a file of its own. -/
theorem C16_witness :
    userFile (runOps customConfig (emptyDb plainNames)
      [StoreOp.registerUser "u1" Basic, StoreOp.buyCoffee "u1" Espresso 0,
       StoreOp.buyCoffee "u1" Espresso 5, StoreOp.getUserData "u2",
       StoreOp.registerUser "u3" CoffeeLover]) "u1" =
      some (FileData.record
        (withCounter { Membership := Basic, QuotaState := mapEmpty } Espresso
          { AmountBought := 1, StartBoughtTime := 0 })) :=
  C16_cache_mirrors_files customConfig plainNames
    [StoreOp.registerUser "u1" Basic, StoreOp.buyCoffee "u1" Espresso 0,
     StoreOp.buyCoffee "u1" Espresso 5, StoreOp.getUserData "u2",
     StoreOp.registerUser "u3" CoffeeLover] "u1"
    (withCounter { Membership := Basic, QuotaState := mapEmpty } Espresso
      { AmountBought := 1, StartBoughtTime := 0 })
    (by
      intro x _ y _ hxy
      have h2 : (fullUserFileName x).data = (fullUserFileName y).data :=
        congrArg String.data hxy
      simp only [fullUserFileName, String.data_append] at h2
      exact String.ext (List.append_cancel_right h2))
    rfl

/-! ## Bounds of the counters -/

theorem accountBoundedOn_buyCoffee {coffeeConfig : CoffeeConfig} {fileId : String → String}
    {ids : List String} {tier : MembershipType} {A : Nat} {userId : String}
    {coffee : CoffeeType} {pol : CoffeeQuota}
    (hp : coffeeQuotaConfig coffeeConfig coffee tier = Except.ok pol)
    (hA : pol.Amount = A) (hA32 : isUint32 A) {db : CoffeeDb}
    (h : accountBoundedOn fileId ids tier A userId coffee db) (k : BuyCall)
    (hk : k.userId ∈ ids) :
    accountBoundedOn fileId ids tier A userId coffee
      (buyCoffee coffeeConfig db k.userId k.coffee k.now k.w).db := by
  obtain ⟨hfid, husers, hfile⟩ := h
  have hpath : ∀ v, storagePath db v = fileId (fullUserFileName v) := by
    intro v; unfold storagePath; rw [hfid]
  -- an account found under an id that names the file of the user
  have hacc : fileId (fullUserFileName k.userId) = fileId (fullUserFileName userId) →
      ∀ a, hasAccount db k.userId a → a.Membership = tier ∧ counterBounded A coffee a := by
    intro halias a ha
    rcases ha with hu | ⟨_, hf⟩
    · exact husers k.userId a (Or.inr hk) halias hu
    · rw [userFile_of_fileId hfid, halias] at hf
      exact hfile a hf
  rcases buyCoffee_shape coffeeConfig db k.userId k.coffee k.now k.w with
    ⟨_, hdb⟩ | ⟨a, ha, hdb | ⟨q, hq, hdb⟩⟩
  · rw [hdb]; exact ⟨hfid, husers, hfile⟩
  · rw [hdb]
    refine ⟨hfid, ?_, hfile⟩
    intro v b hv halias hb
    by_cases hvk : v = k.userId
    · rw [hvk, cacheFill_users] at hb
      cases hb
      exact hacc (hvk ▸ halias) a ha
    · simp only [cacheFill, mapSet_other _ _ hvk] at hb
      exact husers v b hv halias hb
  · rw [hdb]
    by_cases hal : fileId (fullUserFileName k.userId) = fileId (fullUserFileName userId)
    · -- the account written to the file of the user
      have hab := hacc hal a ha
      have hnew : (withCounter a k.coffee q).Membership = tier ∧
          counterBounded A coffee (withCounter a k.coffee q) := by
        refine ⟨hab.1, ?_⟩
        intro q1 hq1
        by_cases hc : coffee = k.coffee
        · rw [hc, withCounter_same] at hq1
          cases hq1
          rcases hq with hq | ⟨pol1, n, s, hp1, _, hn, hq⟩
          · rw [hq]; exact ⟨le_refl 1, le_max_left 1 A⟩
          · rw [← hc, hab.1, hp] at hp1
            cases hp1
            rw [hq]
            unfold isUint32 at hA32
            have hw : wrapUint32 (n + 1) = n + 1 := by
              unfold wrapUint32
              exact Nat.mod_eq_of_lt (by omega)
            simp only [hw]
            have := le_max_right 1 A
            omega
        · have : (withCounter a k.coffee q).QuotaState coffee = a.QuotaState coffee := by
            simp [withCounter, mapSet_other, hc]
          rw [this] at hq1
          exact hab.2 q1 hq1
      refine ⟨by rw [saveUserData_fileId]; exact hfid, ?_, ?_⟩
      · intro v b hv halias hb
        rw [saveUserData_users] at hb
        by_cases hvk : v = k.userId
        · rw [hvk, cacheFill_users] at hb
          cases hb
          exact hnew
        · simp only [cacheFill, mapSet_other _ _ hvk] at hb
          exact husers v b hv halias hb
      · intro b hb
        have hs := saveUserData_files_same (cacheFill db k.userId (withCounter a k.coffee q))
          k.userId (withCounter a k.coffee q) k.w
        have hp2 : storagePath (cacheFill db k.userId (withCounter a k.coffee q)) k.userId =
            fileId (fullUserFileName userId) := by
          rw [storagePath_cacheFill, hpath, hal]
        rw [hp2] at hs
        rcases hs with hs | hs | ⟨_, hs⟩
        · rw [hs] at hb
          exact hfile b hb
        · rw [hs] at hb
          injection hb with hb
          injection hb with hb
          rw [← hb]; exact hnew
        · rw [hs] at hb
          cases hb
    · refine ⟨by rw [saveUserData_fileId]; exact hfid, ?_, ?_⟩
      · intro v b hv halias hb
        have hvk : v ≠ k.userId := by
          intro hvk
          rw [hvk] at halias
          exact hal halias
        rw [saveUserData_users] at hb
        simp only [cacheFill, mapSet_other _ _ hvk] at hb
        exact husers v b hv halias hb
      · intro b hb
        have hne : fileId (fullUserFileName userId) ≠
            storagePath (cacheFill db k.userId (withCounter a k.coffee q)) k.userId := by
          rw [storagePath_cacheFill, hpath]
          exact fun heq => hal heq.symm
        rw [saveUserData_files_other _ _ _ _ hne] at hb
        exact hfile b hb

theorem accountBoundedOn_runBuys {coffeeConfig : CoffeeConfig} {fileId : String → String}
    {ids : List String} {tier : MembershipType} {A : Nat} {userId : String}
    {coffee : CoffeeType} {pol : CoffeeQuota}
    (hp : coffeeQuotaConfig coffeeConfig coffee tier = Except.ok pol)
    (hA : pol.Amount = A) (hA32 : isUint32 A) (calls : List BuyCall) :
    ∀ db : CoffeeDb, (∀ k ∈ calls, k.userId ∈ ids) →
      accountBoundedOn fileId ids tier A userId coffee db →
      accountBoundedOn fileId ids tier A userId coffee (runBuys coffeeConfig db calls) := by
  induction calls with
  | nil => intro db _ h; exact h
  | cons k calls ih =>
    intro db hids h
    exact ih _ (fun j hj => hids j (List.mem_cons_of_mem k hj))
      (accountBoundedOn_buyCoffee hp hA hA32 h k (hids k (List.mem_cons_self k calls)))

theorem accountBoundedOn_RegisterUser {db : CoffeeDb} {userId : String} {ids : List String}
    (hf : userFile db userId = none)
    (halias : ∀ v ∈ ids, v ≠ userId → storagePath db v = storagePath db userId →
      db.users v = none)
    (tier : MembershipType) (A : Nat) (coffee : CoffeeType) (w : WriteOutcome) :
    accountBoundedOn db.fileId ids tier A userId coffee (RegisterUser db userId tier w).1 := by
  have hfresh : (({ Membership := tier, QuotaState := mapEmpty } :
      UserCoffeeMembership)).Membership = tier ∧
      counterBounded A coffee { Membership := tier, QuotaState := mapEmpty } := by
    refine ⟨rfl, ?_⟩
    intro q hq
    simp [mapEmpty] at hq
  rw [RegisterUser_absent hf]
  refine ⟨by rw [saveUserData_fileId]; rfl, ?_, ?_⟩
  · intro v b hv hal hb
    rw [saveUserData_users] at hb
    by_cases hvu : v = userId
    · rw [hvu, cacheFill_users] at hb
      cases hb
      exact hfresh
    · simp only [cacheFill, mapSet_other _ _ hvu] at hb
      have hvid : v ∈ ids := by
        rcases hv with hv | hv
        · exact absurd hv hvu
        · exact hv
      rw [halias v hvid hvu hal] at hb
      cases hb
  · intro b hb
    rcases saveUserData_files_same
        (cacheFill db userId { Membership := tier, QuotaState := mapEmpty }) userId
        { Membership := tier, QuotaState := mapEmpty } w with hs | hs | ⟨_, hs⟩
    · have hb2 : (saveUserData (cacheFill db userId
          { Membership := tier, QuotaState := mapEmpty }) userId
          { Membership := tier, QuotaState := mapEmpty } w).1.files
          (storagePath (cacheFill db userId { Membership := tier, QuotaState := mapEmpty })
            userId) = some (FileData.record b) := hb
      rw [hs] at hb2
      have : (cacheFill db userId { Membership := tier, QuotaState := mapEmpty }).files
          (storagePath (cacheFill db userId { Membership := tier, QuotaState := mapEmpty })
            userId) = none := hf
      rw [this] at hb2
      cases hb2
    · have hb2 : (saveUserData (cacheFill db userId
          { Membership := tier, QuotaState := mapEmpty }) userId
          { Membership := tier, QuotaState := mapEmpty } w).1.files
          (storagePath (cacheFill db userId { Membership := tier, QuotaState := mapEmpty })
            userId) = some (FileData.record b) := hb
      rw [hs] at hb2
      injection hb2 with hb2
      injection hb2 with hb2
      rw [← hb2]; exact hfresh
    · have hb2 : (saveUserData (cacheFill db userId
          { Membership := tier, QuotaState := mapEmpty }) userId
          { Membership := tier, QuotaState := mapEmpty } w).1.files
          (storagePath (cacheFill db userId { Membership := tier, QuotaState := mapEmpty })
            userId) = some (FileData.record b) := hb
      rw [hs] at hb2
      cases hb2

/-- C17: the policy for `(tier, c)` has allowance `A`; user `u`, unknown to
the store, is registered with the tier.  After any sequence of `buyCoffee`
calls (any users, categories, clock readings and write outcomes; a caller other
than `u` whose id names the file of `u` is not cached beforehand) every counter
the cache or the file of `u` holds for `c` satisfies
`1 ≤ AmountBought ≤ max 1 A`; the increment `AmountBought + 1`, which
`buyCoffee` performs only below the allowance, never wraps around. -/
theorem C17_counter_bounds (coffeeConfig : CoffeeConfig) (db : CoffeeDb) (userId : String)
    (tier : MembershipType) (coffee : CoffeeType) (pol : CoffeeQuota) (A : Nat)
    (w0 : WriteOutcome) (calls : List BuyCall) (q : UserCoffeeQuota)
    (hc : db.users userId = none) (hf : userFile db userId = none)
    (halias : ∀ k ∈ calls, k.userId ≠ userId →
      storagePath db k.userId = storagePath db userId → db.users k.userId = none)
    (hp : coffeeQuotaConfig coffeeConfig coffee tier = Except.ok pol)
    (hA : pol.Amount = A) (hA32 : isUint32 A)
    (hq : cachedCounter (runBuys coffeeConfig (RegisterUser db userId tier w0).1 calls)
          userId coffee = some q ∨
        storedCounter (runBuys coffeeConfig (RegisterUser db userId tier w0).1 calls)
          userId coffee = some q) :
    1 ≤ q.AmountBought ∧ q.AmountBought ≤ max 1 A ∧
      (q.AmountBought < A → wrapUint32 (q.AmountBought + 1) = q.AmountBought + 1) := by
  have _ := hc
  have hinit : accountBoundedOn db.fileId (calls.map BuyCall.userId) tier A userId coffee
      (RegisterUser db userId tier w0).1 := by
    apply accountBoundedOn_RegisterUser hf
    intro v hv hvu hal
    obtain ⟨k, hk, rfl⟩ := List.mem_map.mp hv
    exact halias k hk hvu hal
  have hinv : accountBoundedOn db.fileId (calls.map BuyCall.userId) tier A userId coffee
      (runBuys coffeeConfig (RegisterUser db userId tier w0).1 calls) :=
    accountBoundedOn_runBuys hp hA hA32 calls _
      (fun k hk => List.mem_map.mpr ⟨k, hk, rfl⟩) hinit
  obtain ⟨hfid, husers, hfile⟩ := hinv
  have hb : 1 ≤ q.AmountBought ∧ q.AmountBought ≤ max 1 A := by
    rcases hq with hq | hq
    · unfold cachedCounter at hq
      cases hu : (runBuys coffeeConfig (RegisterUser db userId tier w0).1 calls).users userId with
      | none => rw [hu] at hq; cases hq
      | some b =>
        rw [hu] at hq
        exact (husers userId b (Or.inl rfl) rfl hu).2 q hq
    · unfold storedCounter at hq
      rw [userFile_of_fileId hfid] at hq
      cases hu : (runBuys coffeeConfig (RegisterUser db userId tier w0).1 calls).files
          (db.fileId (fullUserFileName userId)) with
      | none => rw [hu] at hq; cases hq
      | some d =>
        cases d with
        | malformed => rw [hu] at hq; cases hq
        | record b =>
          rw [hu] at hq
          exact (hfile b hu).2 q hq
  refine ⟨hb.1, hb.2, ?_⟩
  intro hlt
  unfold isUint32 at hA32
  unfold wrapUint32
  exact Nat.mod_eq_of_lt (by omega)

/-- Three Americano of "u1" (allowance 2), the last write failing. -/
theorem C17_witness :
    1 ≤ ({ AmountBought := 2, StartBoughtTime := 0 } : UserCoffeeQuota).AmountBought ∧
    ({ AmountBought := 2, StartBoughtTime := 0 } : UserCoffeeQuota).AmountBought ≤ max 1 2 ∧
    (({ AmountBought := 2, StartBoughtTime := 0 } : UserCoffeeQuota).AmountBought < 2 →
      wrapUint32 (({ AmountBought := 2, StartBoughtTime := 0 } :
        UserCoffeeQuota).AmountBought + 1) =
        ({ AmountBought := 2, StartBoughtTime := 0 } : UserCoffeeQuota).AmountBought + 1) :=
  C17_counter_bounds customConfig (emptyDb plainNames) "u1" Basic Americano
    { Type_ := Americano, Amount := 2, TimeFrame := 10 * 1000000000 } 2 WriteOutcome.ok
    [ { userId := "u1", coffee := Americano, now := 0, w := WriteOutcome.ok },
      { userId := "u1", coffee := Americano, now := 1, w := WriteOutcome.failedTruncated },
      { userId := "u1", coffee := Americano, now := 2, w := WriteOutcome.ok } ]
    { AmountBought := 2, StartBoughtTime := 0 } rfl rfl (fun _ _ _ _ => rfl) rfl rfl
    (by decide) (Or.inl (by decide))

end CoffeeShop
